import Mathlib

set_option linter.unusedVariables false

namespace HowToRecorder

/-! Shallow embedding of the How-To Recorder browser extension's
interaction-recording pipeline.

Part 1 models `src/contentScript/inputHandler.ts` together with the
recordable-value policy of `src/utils/sensitiveFields.ts` (`maskValue`,
`getRecordableValue`): a state machine over an explicit event trace, with
the JavaScript timer queue made explicit as a map from form elements to
pending debounce deadlines. -/

inductive ElemKind where
  | input
  | textarea
  | select
  | other
deriving DecidableEq

/-- A form element as seen by the input handler.  `key` models JavaScript
object identity (the `Map` keys of `debounceTimers` and
`lastRecordedValues`); `sensitive` models the verdict of the external
sensitive-field classifier heuristics used by `isSensitiveField`
(password input type, autocomplete, name/id, placeholder, label, masking
CSS); `ignored` models membership in a `[data-how-to-recorder-ignore]`
subtree. -/
structure FieldElem where
  key : Nat
  kind : ElemKind
  inputType : String
  ignored : Bool
  sensitive : Bool
deriving DecidableEq

/-- `maskValue` from `sensitiveFields.ts`: every sensitive value is
replaced by the fixed placeholder. -/
def maskValue (_v : String) : String := "********"

/-- `isSensitiveField` from `sensitiveFields.ts`: only input and textarea
elements are ever classified sensitive; for those the external heuristic
verdict decides. -/
def isSensitiveField (e : FieldElem) : Bool :=
  match e.kind with
  | .input => e.sensitive
  | .textarea => e.sensitive
  | _ => false

/-- `getRecordableValue` from `sensitiveFields.ts`: the value handed to
the recording pipeline, masked when the field is sensitive, together
with the sensitivity flag. -/
def getRecordableValue (e : FieldElem) (v : String) : String × Bool :=
  let s := isSensitiveField e
  (if s then maskValue v else v, s)

/-- An `InputEventMessage` as sent to the background script. -/
structure InputMsg where
  elem : FieldElem
  value : String
  isSensitive : Bool
  timestamp : Nat
deriving DecidableEq

/-- State of the input handler.  `timers` is the `debounceTimers` map:
an entry `(e, some d)` is a pending timeout scheduled to fire at absolute
time `d`, an entry `(e, none)` is a map entry whose timeout handle has
been cleared (in the source, `clearTimeout` does not remove the map
entry).  `curVals` is not handler state but the DOM: the current `value`
property of each element, keyed like the maps.  `emitted` accumulates the
messages sent through the input callback. -/
structure InputState where
  recordingStartTime : Option Nat
  timers : List (FieldElem × Option Nat)
  lastRecordedValues : List (Nat × String)
  curVals : List (Nat × String)
  emitted : List InputMsg
deriving DecidableEq

def getK (m : List (Nat × String)) (k : Nat) : Option String :=
  (m.find? (fun q => q.1 == k)).map (fun q => q.2)

def setK : List (Nat × String) → Nat → String → List (Nat × String)
  | [], k, v => [(k, v)]
  | q :: rest, k, v => if q.1 == k then (k, v) :: rest else q :: setK rest k v

/-- Current DOM value of an element (the empty string when unknown,
matching an untouched `value` property). -/
def curValOf (s : InputState) (e : FieldElem) : String :=
  (getK s.curVals e.key).getD ""

/-- The value/sensitivity pair `recordInputChange` would record for `e`
in state `s` (select elements bypass `getRecordableValue`, exactly as in
the source). -/
def recordedValueFor (s : InputState) (e : FieldElem) : String × Bool :=
  if e.kind = .select then (curValOf s e, false)
  else getRecordableValue e (curValOf s e)

/-- `recordInputChange` from `inputHandler.ts`: no-op when tracking is
inactive; otherwise compute the recordable value, suppress it if it
equals the last value recorded for the element, and otherwise update the
last-value map and emit an `INPUT_EVENT` message with a timestamp
relative to the recording start. -/
def recordInputChange (s : InputState) (e : FieldElem) (t : Nat) : InputState :=
  match s.recordingStartTime with
  | none => s
  | some start =>
    let vp := recordedValueFor s e
    if getK s.lastRecordedValues e.key = some vp.1 then s
    else
      { s with
        lastRecordedValues := setK s.lastRecordedValues e.key vp.1
        emitted := s.emitted ++
          [{ elem := e, value := vp.1, isSensitive := vp.2, timestamp := t - start }] }

/-- `clearTimeout(existingTimer)` on the entry for `e`: the pending fire
is cancelled but the map entry stays (the source does not delete it
here). -/
def cancelTimerOf (timers : List (FieldElem × Option Nat)) (e : FieldElem) :
    List (FieldElem × Option Nat) :=
  timers.map (fun p => if p.1.key == e.key then (p.1, none) else p)

/-- `debounceTimers.set(target, timer)`: overwrite the entry for `e` (or
append a fresh one) with a timeout pending at deadline `d`. -/
def setTimerOf : List (FieldElem × Option Nat) → FieldElem → Nat →
    List (FieldElem × Option Nat)
  | [], e, d => [(e, some d)]
  | p :: rest, e, d =>
    if p.1.key == e.key then (e, some d) :: rest else p :: setTimerOf rest e d

/-- `debounceTimers.delete(target)` combined with `clearTimeout`. -/
def deleteTimerOf (timers : List (FieldElem × Option Nat)) (e : FieldElem) :
    List (FieldElem × Option Nat) :=
  timers.filter (fun p => p.1.key != e.key)

def INPUT_DEBOUNCE_MS : Nat := 1000

/-- Input types skipped by `handleInputEvent`. -/
def skippedInputTypes : List String := ["hidden", "submit", "button", "reset", "image"]

/-- Input types recorded immediately (no debounce). -/
def immediateInputTypes : List String := ["checkbox", "radio"]

/-- `handleInputEvent` from `inputHandler.ts` for an event at absolute
time `t`.  Guards mirror the source: tracking must be active, only
input/textarea/select elements qualify, the recorder's own UI and
hidden/submit/button/reset/image inputs are skipped.  The existing
debounce timer for the element is cleared, then selects and
checkboxes/radios record immediately while text fields get a fresh
1000 ms timer. -/
def handleInputEvent (s : InputState) (e : FieldElem) (t : Nat) : InputState :=
  match s.recordingStartTime with
  | none => s
  | some _ =>
    if e.kind = .other then s
    else if e.ignored then s
    else if e.kind = .input && skippedInputTypes.contains e.inputType then s
    else if e.kind = .select || (e.kind = .input && immediateInputTypes.contains e.inputType) then
      recordInputChange { s with timers := cancelTimerOf s.timers e } e t
    else
      { s with timers := setTimerOf (cancelTimerOf s.timers e) e (t + INPUT_DEBOUNCE_MS) }

/-- `handleBlurEvent` from `inputHandler.ts`: only input/textarea
elements; any pending timer is cleared and its map entry deleted, then
the current value is recorded immediately. -/
def handleBlurEvent (s : InputState) (e : FieldElem) (t : Nat) : InputState :=
  match s.recordingStartTime with
  | none => s
  | some _ =>
    if e.kind = .input || e.kind = .textarea then
      recordInputChange { s with timers := deleteTimerOf s.timers e } e t
    else s

/-- The body of the `setTimeout` callback installed by
`handleInputEvent`: record the element's current value, then delete the
timer map entry. -/
def fireTimer (s : InputState) (e : FieldElem) (d : Nat) : InputState :=
  let s1 := recordInputChange s e d
  { s1 with timers := deleteTimerOf s1.timers e }

def insertByDeadline (x : FieldElem × Nat) :
    List (FieldElem × Nat) → List (FieldElem × Nat)
  | [] => [x]
  | y :: rest => if x.2 < y.2 then x :: y :: rest else y :: insertByDeadline x rest

def sortByDeadline (l : List (FieldElem × Nat)) : List (FieldElem × Nat) :=
  l.foldr insertByDeadline []

/-- Pending timeouts due at or before time `t`. -/
def dueTimers (s : InputState) (t : Nat) : List (FieldElem × Nat) :=
  s.timers.filterMap (fun p =>
    match p.2 with
    | some d => if d ≤ t then some (p.1, d) else none
    | none => none)

/-- The JavaScript event loop: before the page delivers an event at time
`t`, every pending timeout whose deadline has passed fires, in deadline
order. -/
def fireDue (s : InputState) (t : Nat) : InputState :=
  (sortByDeadline (dueTimers s t)).foldl (fun st p => fireTimer st p.1 p.2) s

def setCurVal (s : InputState) (e : FieldElem) (v : String) : InputState :=
  { s with curVals := setK s.curVals e.key v }

/-- An externally observable page event: a keystroke/change that leaves
the element holding value `v`, or a focus loss. -/
inductive PageEv where
  | inp (e : FieldElem) (t : Nat) (v : String)
  | blur (e : FieldElem) (t : Nat)
deriving DecidableEq

/-- Deliver one page event: run due timers first, update the DOM value
for keystrokes, then run the source's handler. -/
def stepEv (s : InputState) : PageEv → InputState
  | .inp e t v => handleInputEvent (setCurVal (fireDue s t) e v) e t
  | .blur e t => handleBlurEvent (fireDue s t) e t

def run (s0 : InputState) (evs : List PageEv) : InputState :=
  evs.foldl stepEv s0

/-- `run`, then let the clock advance to `tEnd` so that remaining due
timers fire. -/
def runUntil (s0 : InputState) (evs : List PageEv) (tEnd : Nat) : InputState :=
  fireDue (run s0 evs) tEnd

/-- `startInputTracking` from `inputHandler.ts` (the callback is modelled
jointly with `recordingStartTime`, since the source sets and clears both
together). -/
def startInputTracking (s : InputState) (startTime : Nat) : InputState :=
  { s with
    recordingStartTime := some startTime
    timers := []
    lastRecordedValues := [] }

/-- `stopInputTracking` from `inputHandler.ts`: remove listeners, clear
every pending timer and both maps, and deactivate tracking. -/
def stopInputTracking (s : InputState) : InputState :=
  { s with
    timers := []
    lastRecordedValues := []
    recordingStartTime := none }

/-- One iteration of the `flushPendingInputs` loop, at wall-clock time
`tNow`: `clearTimeout` (no state effect on the map being iterated), then
record the current value when the element is an input or textarea. -/
def flushStep (tNow : Nat) (st : InputState) (p : FieldElem × Option Nat) : InputState :=
  if p.1.kind = .input || p.1.kind = .textarea then
    recordInputChange st p.1 tNow
  else st

/-- `flushPendingInputs` from `inputHandler.ts`: walk the timer map,
record the current value of every input/textarea entry, then clear the
map. -/
def flushPendingInputs (s : InputState) (tNow : Nat) : InputState :=
  let s1 := s.timers.foldl (flushStep tNow) s
  { s1 with timers := [] }

/-- The `stopRecording` path of `src/contentScript/index.ts` as it
affects the input handler: `flushPendingInputs()` runs first, then
`stopInputTracking()` clears the maps. -/
def contentStopRecording (s : InputState) (tNow : Nat) : InputState :=
  stopInputTracking (flushPendingInputs s tNow)

/-- A freshly started input handler over a page whose elements currently
hold the values `cv`: `startInputTracking` applied to a pristine state. -/
def initStarted (cv : List (Nat × String)) (startTime : Nat) : InputState :=
  startInputTracking
    { recordingStartTime := none, timers := [], lastRecordedValues := [],
      curVals := cv, emitted := [] } startTime

/-- An emitted message never leaks a sensitive value: whenever its
element is classified sensitive, the carried value is the fixed mask and
the flag is set. -/
def MaskedOk (m : InputMsg) : Prop :=
  isSensitiveField m.elem = true → m.value = "********" ∧ m.isSensitive = true

/-- Structural invariant of the timer map: every entry belongs to an
input or textarea element (only the debounce branch creates entries) and
keys are unique (it is a `Map`). -/
def GoodTimers (s : InputState) : Prop :=
  (∀ p ∈ s.timers, p.1.kind = ElemKind.input ∨ p.1.kind = ElemKind.textarea) ∧
  (s.timers.map (fun p => p.1.key)).Nodup

/-- Every last-recorded value was emitted at some point. -/
def LastRecordedEmitted (s : InputState) : Prop :=
  ∀ k v, getK s.lastRecordedValues k = some v →
    ∃ m ∈ s.emitted, m.elem.key = k ∧ m.value = v

/-- Invariant of states reachable from a freshly started handler. -/
def ReachInv (s : InputState) : Prop :=
  s.recordingStartTime.isSome = true ∧ GoodTimers s ∧ LastRecordedEmitted s

/-! Part 2 models the session orchestrator of `src/background/index.ts`:
the session singleton, step/annotation operations and the tab-removal
listener.  Browser capabilities (tab queries, screenshots, message
sends, storage writes) are external; their results enter the operations
as parameters, and `generateUniqueId` is modelled by a deterministic
counter since no claim concerns id contents. -/

inductive StepType where
  | navigation
  | click
  | input
deriving DecidableEq

/-- `ElementInfo` from `src/types/recording.ts`. -/
structure ElementInfo where
  tag : String
  text : String
  selector : String
  inputType : Option String := none
  name : Option String := none
  id : Option String := none
  className : Option String := none
  ariaLabel : Option String := none
deriving DecidableEq

/-- `RecordingStep` from `src/types/recording.ts`. -/
structure RecordingStep where
  id : String
  timestamp : Nat
  stepType : StepType
  tabId : Nat
  tabTitle : String
  url : String
  screenshotData : Option String := none
  element : Option ElementInfo := none
  inputValue : Option String := none
  isSensitive : Option Bool := none
deriving DecidableEq

/-- `Annotation` from `src/types/recording.ts`. -/
structure Annotation where
  id : String
  timestamp : Nat
  text : String
deriving DecidableEq

/-- `RecordingSession` from `src/types/recording.ts`. -/
structure RecordingSession where
  id : String
  title : String
  startTime : Nat
  endTime : Option Nat := none
  isRecording : Bool
  hasAudio : Bool
  steps : List RecordingStep
  annotations : List Annotation
  trackedTabIds : List Nat
deriving DecidableEq

/-- The background service worker's mutable state: the session singleton
`currentSession`, the `readyTabs` set, and the id counter standing in
for `generateUniqueId`. -/
structure BgState where
  currentSession : Option RecordingSession
  readyTabs : List Nat
  nextId : Nat
deriving DecidableEq

/-- A tab handle as returned by `chrome.tabs.query` / `chrome.tabs.get`:
`title` and `url` may be absent. -/
structure TabInfo where
  id : Nat
  title : Option String := none
  url : Option String := none
deriving DecidableEq

/-- JavaScript `a || b` for an optional string `a`: the empty string is
falsy. -/
def jsOr (a : Option String) (b : String) : String :=
  match a with
  | some s => if s = "" then b else s
  | none => b

/-- Data carried by an interaction or navigation record into `addStep`
(the `Partial<RecordingStep>` argument). -/
structure StepData where
  timestamp : Option Nat := none
  element : Option ElementInfo := none
  inputValue : Option String := none
  isSensitive : Option Bool := none
  url : Option String := none
deriving DecidableEq

/-- `startRecording(title, hasAudio)` from `src/background/index.ts`.
`activeTab` is the result of `chrome.tabs.query({active: true, ...})`
(`none` when no tab matched), `now` is `Date.now()` and `shot` the
result of the external screenshot capture.  The guard mirrors
`!activeTab?.id` (a zero id is falsy).  On failure the state — hence the
session singleton — is returned unchanged together with the error. -/
def startRecording (s : BgState) (activeTab : Option TabInfo) (now : Nat)
    (title : String) (hasAudio : Bool) (shot : Option String) :
    BgState × Except String RecordingSession :=
  match activeTab with
  | none => (s, .error "No active tab found")
  | some tab =>
    if tab.id = 0 then (s, .error "No active tab found")
    else
      let initialStep : RecordingStep :=
        { id := "step_" ++ toString (s.nextId + 1)
          timestamp := 0
          stepType := .navigation
          tabId := tab.id
          tabTitle := jsOr tab.title "Untitled"
          url := jsOr tab.url ""
          screenshotData := shot }
      let sess : RecordingSession :=
        { id := "session_" ++ toString s.nextId
          title := title
          startTime := now
          endTime := none
          isRecording := true
          hasAudio := hasAudio
          steps := [initialStep]
          annotations := []
          trackedTabIds := [tab.id] }
      ({ s with currentSession := some sess, nextId := s.nextId + 2 }, .ok sess)

/-- `stopRecording()` from `src/background/index.ts`: warn-and-return
when no session exists, otherwise clear the recording flag and set the
end time (detector disabling and storage writes are external). -/
def stopRecording (s : BgState) (now : Nat) : BgState × Option RecordingSession :=
  match s.currentSession with
  | none => (s, none)
  | some sess =>
    let sess' := { sess with isRecording := false, endTime := some now }
    ({ s with currentSession := some sess' }, some sess')

/-- `addStep(type, data, tabId)` from `src/background/index.ts`.
`tabInfo` is the result of `chrome.tabs.get(tabId)` (`none` when it
threw) and `shot` the screenshot-with-highlight result.  The step is
appended whenever a session is recording; afterwards the tab is added to
`trackedTabIds` if it was not yet a member. -/
def addStep (s : BgState) (ty : StepType) (data : StepData) (tabId : Nat)
    (now : Nat) (tabInfo : Option TabInfo) (shot : Option String) :
    BgState × Option RecordingStep :=
  match s.currentSession with
  | none => (s, none)
  | some sess =>
    if sess.isRecording = false then (s, none)
    else
      let tabTitle := match tabInfo with
        | some tb => jsOr tb.title "Untitled"
        | none => "Unknown"
      let tabUrl := match tabInfo with
        | some tb => jsOr tb.url (jsOr data.url "")
        | none => jsOr data.url ""
      let ts := match data.timestamp with
        | some t => if t = 0 then now - sess.startTime else t
        | none => now - sess.startTime
      let st : RecordingStep :=
        { id := "step_" ++ toString s.nextId
          timestamp := ts
          stepType := ty
          tabId := tabId
          tabTitle := tabTitle
          url := tabUrl
          screenshotData := shot
          element := data.element
          inputValue := data.inputValue
          isSensitive := data.isSensitive }
      let sess1 := { sess with steps := sess.steps ++ [st] }
      let sess2 :=
        if sess1.trackedTabIds.contains tabId then sess1
        else { sess1 with trackedTabIds := sess1.trackedTabIds ++ [tabId] }
      ({ s with currentSession := some sess2, nextId := s.nextId + 1 }, some st)

/-- Replace the text of the first annotation with the given id (the
`find`-then-mutate of the source). -/
def setAnnText : List Annotation → String → String → List Annotation
  | [], _, _ => []
  | a :: rest, i, t =>
    if a.id = i then { a with text := t } :: rest
    else a :: setAnnText rest i t

/-- The ` updateAnnotation(annotationId, text)` operation from `src/background/index.ts`:
nothing without a session; with one, mutate the text of the first
annotation carrying the id and return it, or return `null` leaving the
state untouched when the id is unknown. -/
def updateAnnotation (s : BgState) (annotationId : String) (text : String) :
    BgState × Option Annotation :=
  match s.currentSession with
  | none => (s, none)
  | some sess =>
    match sess.annotations.find? (fun a => a.id == annotationId) with
    | none => (s, none)
    | some a =>
      let sess' := { sess with annotations := setAnnText sess.annotations annotationId text }
      ({ s with currentSession := some sess' }, some { a with text := text })

/-- The `chrome.tabs.onRemoved` listener from `src/background/index.ts`:
drop the tab from `readyTabs`; while recording, remove it from the
tracked set and, when the tracked set becomes empty, call
`stopRecording` (auto-stop). -/
def onTabRemoved (s : BgState) (tabId : Nat) (now : Nat) : BgState :=
  let s1 := { s with readyTabs := s.readyTabs.erase tabId }
  match s1.currentSession with
  | none => s1
  | some sess =>
    if sess.isRecording = false then s1
    else if sess.trackedTabIds.contains tabId = false then s1
    else
      let tracked := sess.trackedTabIds.erase tabId
      let s2 := { s1 with currentSession := some { sess with trackedTabIds := tracked } }
      if tracked.isEmpty then (stopRecording s2 now).1 else s2

/-! Part 3 models `src/contentScript/selectorGenerator.ts`.  The
document is a flat list of elements, each carrying its tree position as
a path of child indices (the body's children have paths of length one),
in document order.  Selector strings are represented by the abstract
syntax the generator actually constructs — `#id`, `[attr="value"]`,
`tag.c1...`, `tag:nth-of-type(n)` and `>`-chains of those — plus an
`invalid` form standing for a syntactically ill-formed query, on which
`document.querySelectorAll` throws. -/

/-- One DOM element: tree position, lowercase tag name, `id` property
(empty string when absent), `classList`, and remaining attributes as
read by `getAttribute`. -/
structure DomElem where
  path : List Nat
  tag : String
  idAttr : String
  classes : List String
  attrs : List (String × String)
deriving DecidableEq

abbrev Doc := List DomElem

inductive SimpleSel where
  | idS (id : String)
  | attrS (name value : String)
  | tagClasses (tag : String) (classes : List String)
  | tagNth (tag : String) (n : Nat)
deriving DecidableEq

inductive Sel where
  | path (parts : List SimpleSel)
  | invalid (raw : String)
deriving DecidableEq

def elemAt (doc : Doc) (p : List Nat) : Option DomElem :=
  List.find? (fun d => d.path == p) doc

def getAttr (d : DomElem) (a : String) : Option String :=
  (d.attrs.find? (fun q => q.1 == a)).map (fun q => q.2)

/-- The children of the same parent (document order): same depth, same
leading path. -/
def siblings (doc : Doc) (p : List Nat) : List DomElem :=
  List.filter (fun d => d.path.length == p.length && d.path.dropLast == p.dropLast) doc

/-- `getNthOfTypePosition`: 1-based index among same-tag siblings. -/
def nthOfTypePos (doc : Doc) (e : DomElem) : Nat :=
  ((siblings doc e.path).filter (fun d => d.tag == e.tag)).findIdx
    (fun d => d.path == e.path) + 1

def matchesSimple (doc : Doc) (d : DomElem) : SimpleSel → Bool
  | .idS i => d.idAttr == i && i != ""
  | .attrS a v => getAttr d a == some v
  | .tagClasses t cs => d.tag == t && cs.all (fun c => d.classes.contains c)
  | .tagNth t n => d.tag == t && nthOfTypePos doc d == n

/-- Match the reversed tail of a `>`-chain upward along the parent
chain starting at path `p`; the body (empty path) matches nothing. -/
def revMatch (doc : Doc) : List SimpleSel → List Nat → Bool
  | [], _ => true
  | s :: rest, p =>
    if p.isEmpty then false
    else
      match elemAt doc p with
      | some d => matchesSimple doc d s && revMatch doc rest p.dropLast
      | none => false

/-- CSS semantics of a `>`-chain at element `e`: the last part matches
`e` and the earlier parts match its consecutive ancestors. -/
def matchesChain (doc : Doc) (e : DomElem) (parts : List SimpleSel) : Bool :=
  match parts.reverse with
  | [] => false
  | s :: rest => matchesSimple doc e s && revMatch doc rest e.path.dropLast

/-- `document.querySelectorAll(sel).length` for a well-formed selector. -/
def countSel (doc : Doc) (parts : List SimpleSel) : Nat :=
  List.countP (fun e => matchesChain doc e parts) doc

/-- `document.querySelectorAll`, which throws on a syntactically invalid
selector. -/
def queryCount (doc : Doc) : Sel → Except Unit Nat
  | .path parts => .ok (countSel doc parts)
  | .invalid _ => .error ()

/-- `isUnique` from `selectorGenerator.ts`: a query error is caught and
treated as "not unique". -/
def isUnique (doc : Doc) (sel : Sel) : Bool :=
  match queryCount doc sel with
  | .ok n => n == 1
  | .error _ => false

/-- `isUniqueId`: `document.querySelectorAll('#id').length === 1`. -/
def isUniqueId (doc : Doc) (i : String) : Bool :=
  countSel doc [.idS i] == 1

def STABLE_ATTRIBUTES : List String :=
  ["data-testid", "data-cy", "data-test", "data-qa", "name", "aria-label", "role"]

def isLetterAZ (ch : Char) : Bool :=
  ('a' ≤ ch && ch ≤ 'z') || ('A' ≤ ch && ch ≤ 'Z')

def isDigit09 (ch : Char) : Bool := '0' ≤ ch && ch ≤ '9'

/-- The CSS-modules pattern `/^_[a-z0-9]+$/i`. -/
def cssModuleClass (c : String) : Bool :=
  match c.toList with
  | '_' :: rest => rest.isEmpty = false && rest.all (fun ch => isLetterAZ ch || isDigit09 ch)
  | _ => false

/-- The minified-class pattern `/^[a-z]{1,2}[0-9]+$/i`. -/
def minifiedClass (c : String) : Bool :=
  match c.toList with
  | [] => false
  | a :: rest =>
    isLetterAZ a &&
      ((rest.isEmpty = false && rest.all isDigit09) ||
        (match rest with
         | b :: rest2 => isLetterAZ b && rest2.isEmpty = false && rest2.all isDigit09
         | [] => false))

def hasDoubleDash : List Char → Bool
  | '-' :: '-' :: _ => true
  | _ :: rest => hasDoubleDash rest
  | [] => false

/-- `UNSTABLE_CLASS_PATTERNS` from `selectorGenerator.ts`. -/
def isUnstableClass (c : String) : Bool :=
  c.startsWith "css-" || c.startsWith "sc-" || c.startsWith "emotion-" ||
    cssModuleClass c || minifiedClass c || c.startsWith "jsx-" ||
    hasDoubleDash c.toList

def isStableClass (c : String) : Bool := isUnstableClass c = false

def getStableClasses (e : DomElem) : List String :=
  e.classes.filter isStableClass

/-- `tryIdSelector`: the `#id` shortcut, only when the element has an id
and that id is document-unique. -/
def tryIdSelector (doc : Doc) (e : DomElem) : Option Sel :=
  if e.idAttr != "" && isUniqueId doc e.idAttr then some (.path [.idS e.idAttr])
  else none

def tryAttrList (doc : Doc) (e : DomElem) : List String → Option Sel
  | [] => none
  | a :: rest =>
    match getAttr e a with
    | some v =>
      if v != "" then
        if isUnique doc (.path [.attrS a v]) then some (.path [.attrS a v])
        else tryAttrList doc e rest
      else tryAttrList doc e rest
    | none => tryAttrList doc e rest

/-- `tryAttributeSelector`: walk the stable-attribute priority list. -/
def tryAttributeSelector (doc : Doc) (e : DomElem) : Option Sel :=
  tryAttrList doc e STABLE_ATTRIBUTES

def tryClassList (doc : Doc) (tag : String) : List String → Option Sel
  | [] => none
  | c :: rest =>
    if isUnique doc (.path [.tagClasses tag [c]]) then some (.path [.tagClasses tag [c]])
    else tryClassList doc tag rest

/-- `tryClassSelector`: tag + one stable class, then tag + all stable
classes. -/
def tryClassSelector (doc : Doc) (e : DomElem) : Option Sel :=
  let stable := getStableClasses e
  match tryClassList doc e.tag stable with
  | some s => some s
  | none =>
    if decide (2 ≤ stable.length) && isUnique doc (.path [.tagClasses e.tag stable]) then
      some (.path [.tagClasses e.tag stable])
    else none

/-- The proper, non-body ancestors of a path, nearest first. -/
def properPrefixes (p : List Nat) : List (List Nat) :=
  ((List.range p.length).drop 1).reverse.map (fun k => p.take k)

/-- `findNearestIdAncestor`: walk up (stopping before the body) to the
first ancestor with a document-unique id. -/
def findNearestIdAncestor (doc : Doc) (p : List Nat) : Option (List Nat) :=
  (properPrefixes p).find? (fun q =>
    match elemAt doc q with
    | some a => a.idAttr != "" && isUniqueId doc a.idAttr
    | none => false)

/-- `getSimpleSelector`: tag + first stable class when unique among the
siblings (`:scope > sel`), else `tag:nth-of-type(n)`. -/
def getSimpleSelector (doc : Doc) (p : List Nat) : SimpleSel :=
  match elemAt doc p with
  | none => .tagNth "" 1
  | some e =>
    match getStableClasses e with
    | [] => .tagNth e.tag (nthOfTypePos doc e)
    | c :: _ =>
      if (siblings doc p).countP
          (fun d => matchesSimple doc d (.tagClasses e.tag [c])) == 1 then
        .tagClasses e.tag [c]
      else .tagNth e.tag (nthOfTypePos doc e)

/-- The intermediate paths strictly between ancestor `q` and target `p`,
top-down (the source collects them bottom-up and reverses). -/
def betweenPaths (q p : List Nat) : List (List Nat) :=
  (List.range' (q.length + 1) (p.length - 1 - q.length)).map (fun k => p.take k)

/-- `buildPathSelector`: `#ancestorId > ... > simple(target)`. -/
def buildPathSelector (doc : Doc) (q p : List Nat) : Sel :=
  let ancId := match elemAt doc q with
    | some a => a.idAttr
    | none => ""
  .path ([.idS ancId] ++ (betweenPaths q p).map (getSimpleSelector doc) ++
    [getSimpleSelector doc p])

/-- `buildFullPathSelector`: the per-node simple selectors of every
ancestor from just below the body down to the element. -/
def buildFullPathSelector (doc : Doc) (p : List Nat) : Sel :=
  .path ((List.range' 1 p.length).map (fun k => getSimpleSelector doc (p.take k)))

/-- Tiers 2–5 of `generateSelector`, reached when the `#id` shortcut did
not apply. -/
def selectorAfterId (doc : Doc) (e : DomElem) : Sel :=
  match tryAttributeSelector doc e with
  | some s => s
  | none =>
    match tryClassSelector doc e with
    | some s => s
    | none =>
      match findNearestIdAncestor doc e.path with
      | some q =>
        let ps := buildPathSelector doc q e.path
        if isUnique doc ps then ps else buildFullPathSelector doc e.path
      | none => buildFullPathSelector doc e.path

/-- `generateSelector` from `selectorGenerator.ts`. -/
def generateSelector (doc : Doc) (e : DomElem) : Sel :=
  match tryIdSelector doc e with
  | some s => s
  | none => selectorAfterId doc e

/-- Whether a selector is the bare `#id` form. -/
def isIdSingleton : Sel → Bool
  | .path [.idS _] => true
  | _ => false

/-- Whether a selector is the ill-formed query form (never produced by
the generator). -/
def isInvalidSel : Sel → Bool
  | .invalid _ => true
  | _ => false

/-! # Helper lemmas -/

theorem getK_setK_self (m : List (Nat × String)) (k : Nat) (v : String) :
    getK (setK m k v) k = some v := by
  induction m with
  | nil => simp [setK, getK]
  | cons q rest ih =>
    by_cases hq : q.1 = k
    · simp [setK, getK, hq]
    · simp only [setK, beq_iff_eq, hq, if_false]
      rw [getK, List.find?_cons_of_neg _ (by simp [hq])]
      exact ih

theorem getK_setK_ne (m : List (Nat × String)) (k k' : Nat) (v : String)
    (h : k' ≠ k) : getK (setK m k v) k' = getK m k' := by
  induction m with
  | nil =>
    rw [setK, getK, List.find?_cons_of_neg _ (by simp [Ne.symm h])]
    rfl
  | cons q rest ih =>
    by_cases hq : q.1 = k
    · subst hq
      simp only [setK, beq_iff_eq, if_true]
      rw [getK, List.find?_cons_of_neg _ (by simp [Ne.symm h]),
        getK, List.find?_cons_of_neg _ (by simp [Ne.symm h])]
    · simp only [setK, beq_iff_eq, hq, if_false]
      by_cases hq' : q.1 = k'
      · simp [getK, hq']
      · rw [getK, List.find?_cons_of_neg _ (by simp [hq']),
          getK, List.find?_cons_of_neg _ (by simp [hq'])]
        exact ih

theorem curValOf_setK_self (s : InputState) (e : FieldElem) (v : String) :
    curValOf (setCurVal s e v) e = v := by
  simp [curValOf, setCurVal, getK_setK_self]

theorem setK_setK_self (m : List (Nat × String)) (k : Nat) (v w : String) :
    setK (setK m k v) k w = setK m k w := by
  induction m with
  | nil => simp [setK]
  | cons q rest ih =>
    by_cases hq : q.1 = k
    · simp [setK, hq]
    · simp [setK, hq, ih]

theorem fireDue_of_no_due (s : InputState) (t : Nat) (h : dueTimers s t = []) :
    fireDue s t = s := by
  unfold fireDue
  rw [h]
  rfl

theorem fireDue_of_timers_nil (s : InputState) (t : Nat) (h : s.timers = []) :
    fireDue s t = s := by
  apply fireDue_of_no_due
  simp [dueTimers, h]

/-- `recordedValueFor` depends only on the DOM values and the element. -/
theorem recordedValueFor_congr (s s' : InputState) (e : FieldElem)
    (h : s.curVals = s'.curVals) : recordedValueFor s e = recordedValueFor s' e := by
  simp [recordedValueFor, curValOf, h]

/-! # C8: suppression of no-op input commits -/

/-- A commit whose recordable value equals the last recorded one leaves
the state untouched. -/
theorem recordInputChange_of_last_eq (s : InputState) (e : FieldElem) (t : Nat)
    (h : getK s.lastRecordedValues e.key = some (recordedValueFor s e).1) :
    recordInputChange s e t = s := by
  cases hs : s.recordingStartTime with
  | none => simp [recordInputChange, hs]
  | some start => simp [recordInputChange, hs, h]

theorem recordInputChange_curVals (s : InputState) (e : FieldElem) (t : Nat) :
    (recordInputChange s e t).curVals = s.curVals := by
  cases hs : s.recordingStartTime with
  | none => simp [recordInputChange, hs]
  | some start =>
    by_cases hlast : getK s.lastRecordedValues e.key = some (recordedValueFor s e).1
    · simp [recordInputChange, hs, hlast]
    · simp [recordInputChange, hs, hlast]

/-- Claim C8: an input commit whose value equals the last value already
recorded for that element leaves the state untouched (no message is
emitted), and committing the same element twice in succession equals
committing it once. -/
theorem c8_noop_commit_suppressed (s s' : InputState) (e : FieldElem) (t t1 t2 : Nat)
    (h : getK s.lastRecordedValues e.key = some (recordedValueFor s e).1) :
    recordInputChange s e t = s ∧
    recordInputChange (recordInputChange s' e t1) e t2 = recordInputChange s' e t1 := by
  refine ⟨recordInputChange_of_last_eq s e t h, ?_⟩
  cases hs : s'.recordingStartTime with
  | none => simp [recordInputChange, hs]
  | some start =>
    by_cases hlast : getK s'.lastRecordedValues e.key = some (recordedValueFor s' e).1
    · rw [recordInputChange_of_last_eq s' e t1 hlast,
        recordInputChange_of_last_eq s' e t2 hlast]
    · apply recordInputChange_of_last_eq
      have hrv : recordedValueFor (recordInputChange s' e t1) e = recordedValueFor s' e :=
        recordedValueFor_congr _ _ _ (recordInputChange_curVals s' e t1)
      have hlr : (recordInputChange s' e t1).lastRecordedValues =
          setK s'.lastRecordedValues e.key (recordedValueFor s' e).1 := by
        simp [recordInputChange, hs, hlast]
      rw [hrv, hlr, getK_setK_self]

/-- Witness for C8 at a concrete state: the element's current value "a"
is already the last recorded value, so the commit is a no-op. -/
theorem c8_noop_commit_suppressed_witness :
    (getK ({ recordingStartTime := some 5, timers := [],
             lastRecordedValues := [(7, "a")], curVals := [(7, "a")],
             emitted := [] } : InputState).lastRecordedValues 7 =
      some (recordedValueFor
        { recordingStartTime := some 5, timers := [],
          lastRecordedValues := [(7, "a")], curVals := [(7, "a")],
          emitted := [] } ⟨7, .input, "text", false, false⟩).1) ∧
    (recordInputChange
      { recordingStartTime := some 5, timers := [],
        lastRecordedValues := [(7, "a")], curVals := [(7, "a")],
        emitted := [] } ⟨7, .input, "text", false, false⟩ 100 =
      { recordingStartTime := some 5, timers := [],
        lastRecordedValues := [(7, "a")], curVals := [(7, "a")],
        emitted := [] } ∧
    recordInputChange (recordInputChange
      { recordingStartTime := some 5, timers := [], lastRecordedValues := [],
        curVals := [(7, "b")], emitted := [] } ⟨7, .input, "text", false, false⟩ 50)
      ⟨7, .input, "text", false, false⟩ 60 =
    recordInputChange
      { recordingStartTime := some 5, timers := [], lastRecordedValues := [],
        curVals := [(7, "b")], emitted := [] } ⟨7, .input, "text", false, false⟩ 50) :=
  ⟨by decide, c8_noop_commit_suppressed _ _ _ 100 50 60 (by decide)⟩

/-! # C4: startRecording requires an active tab -/

/-- Claim C4: `startRecording` without an active tab fails with the
"no active tab" error and leaves the session singleton unchanged; with
an active tab it creates a session whose step list is exactly one
navigation step with timestamp 0 and no element. -/
theorem c4_startRecording_active_tab (s : BgState) (tab : TabInfo) (now : Nat)
    (title : String) (hasAudio : Bool) (shot shot2 : Option String)
    (hid : tab.id ≠ 0) :
    startRecording s none now title hasAudio shot2 = (s, .error "No active tab found") ∧
    ∃ sess st,
      startRecording s (some tab) now title hasAudio shot =
        ({ s with currentSession := some sess, nextId := s.nextId + 2 }, .ok sess) ∧
      sess.steps = [st] ∧ st.stepType = .navigation ∧ st.timestamp = 0 ∧
      st.element = none ∧ sess.isRecording = true ∧ sess.trackedTabIds = [tab.id] := by
  constructor
  · rfl
  · simp only [startRecording]
    rw [if_neg hid]
    exact ⟨_, _, rfl, rfl, rfl, rfl, rfl, rfl, rfl⟩

/-- Witness for C4: a concrete active tab with id 3. -/
theorem c4_startRecording_active_tab_witness :
    ((⟨3, some "Example", some "https://example.com/"⟩ : TabInfo).id ≠ 0) ∧
    (startRecording ⟨none, [], 0⟩ none 50 "Login flow" false none =
        ((⟨none, [], 0⟩ : BgState), .error "No active tab found") ∧
    ∃ sess st,
      startRecording ⟨none, [], 0⟩
          (some ⟨3, some "Example", some "https://example.com/"⟩) 50 "Login flow" false none =
        ({ (⟨none, [], 0⟩ : BgState) with currentSession := some sess, nextId := 2 }, .ok sess) ∧
      sess.steps = [st] ∧ st.stepType = .navigation ∧ st.timestamp = 0 ∧
      st.element = none ∧ sess.isRecording = true ∧
      sess.trackedTabIds = [(⟨3, some "Example", some "https://example.com/"⟩ : TabInfo).id]) :=
  ⟨by decide,
    c4_startRecording_active_tab ⟨none, [], 0⟩ ⟨3, some "Example", some "https://example.com/"⟩
      50 "Login flow" false none none (by decide)⟩

/-! # C5: auto-stop when the last tracked tab closes -/

/-- Claim C5: removing the last remaining tracked tab while recording
transitions the session to inactive with an end time set (without an
explicit stop call), and `addStep` accepts no further steps on the
resulting state. -/
theorem c5_last_tab_removed_auto_stop (s : BgState) (sess : RecordingSession)
    (t now : Nat) (ty : StepType) (data : StepData) (tabId2 now2 : Nat)
    (tabInfo : Option TabInfo) (shot : Option String)
    (hcur : s.currentSession = some sess)
    (hrec : sess.isRecording = true)
    (htr : sess.trackedTabIds = [t]) :
    ∃ sess',
      (onTabRemoved s t now).currentSession = some sess' ∧
      sess'.isRecording = false ∧
      sess'.endTime = some now ∧
      sess'.trackedTabIds = [] ∧
      addStep (onTabRemoved s t now) ty data tabId2 now2 tabInfo shot =
        (onTabRemoved s t now, none) := by
  have hres : onTabRemoved s t now =
      { s with
        readyTabs := s.readyTabs.erase t
        currentSession := some { sess with
          trackedTabIds := [], isRecording := false, endTime := some now } } := by
    unfold onTabRemoved
    simp only [hcur, hrec, htr]
    simp [stopRecording, List.erase_cons]
  rw [hres]
  exact ⟨_, rfl, rfl, rfl, rfl, by simp [addStep]⟩

/-- Witness for C5: a concrete recording session tracking only tab 4. -/
theorem c5_last_tab_removed_auto_stop_witness :
    ((⟨some ⟨"session_0", "T", 10, none, true, false, [], [], [4]⟩, [4], 1⟩ :
        BgState).currentSession =
      some ⟨"session_0", "T", 10, none, true, false, [], [], [4]⟩ ∧
    (⟨"session_0", "T", 10, none, true, false, [], [], [4]⟩ :
        RecordingSession).isRecording = true ∧
    (⟨"session_0", "T", 10, none, true, false, [], [], [4]⟩ :
        RecordingSession).trackedTabIds = [4]) ∧
    ∃ sess',
      (onTabRemoved ⟨some ⟨"session_0", "T", 10, none, true, false, [], [], [4]⟩, [4], 1⟩
          4 99).currentSession = some sess' ∧
      sess'.isRecording = false ∧
      sess'.endTime = some 99 ∧
      sess'.trackedTabIds = [] ∧
      addStep (onTabRemoved ⟨some ⟨"session_0", "T", 10, none, true, false, [], [], [4]⟩, [4], 1⟩
          4 99) .click {} 7 120 none none =
        (onTabRemoved ⟨some ⟨"session_0", "T", 10, none, true, false, [], [], [4]⟩, [4], 1⟩
          4 99, none) :=
  ⟨⟨rfl, rfl, rfl⟩,
    c5_last_tab_removed_auto_stop _ _ 4 99 .click {} 7 120 none none rfl rfl rfl⟩

/-! # C10: frame conditions of updateAnnotation -/

theorem findAnn_append (pre post : List Annotation) (a : Annotation)
    (annId : String) (haid : a.id = annId) (hpre : ∀ b ∈ pre, b.id ≠ annId) :
    List.find? (fun x => x.id == annId) (pre ++ a :: post) = some a := by
  induction pre with
  | nil => simp [List.find?, haid]
  | cons b rest ih =>
    have hb : b.id ≠ annId := hpre b (by simp)
    rw [List.cons_append, List.find?_cons_of_neg _ (by simp [hb])]
    exact ih (fun x hx => hpre x (by simp [hx]))

theorem findAnn_none (l : List Annotation) (annId : String)
    (h : ∀ b ∈ l, b.id ≠ annId) :
    List.find? (fun x => x.id == annId) l = none := by
  induction l with
  | nil => rfl
  | cons b rest ih =>
    rw [List.find?_cons_of_neg _ (by simp [h b (by simp)])]
    exact ih (fun x hx => h x (by simp [hx]))

theorem setAnnText_append (pre post : List Annotation) (a : Annotation)
    (annId txt : String) (haid : a.id = annId) (hpre : ∀ b ∈ pre, b.id ≠ annId) :
    setAnnText (pre ++ a :: post) annId txt = pre ++ { a with text := txt } :: post := by
  induction pre with
  | nil => simp [setAnnText, haid]
  | cons b rest ih =>
    have hb : b.id ≠ annId := hpre b (by simp)
    rw [List.cons_append, setAnnText]
    simp only [hb, if_false, List.cons_append]
    rw [ih (fun x hx => hpre x (by simp [hx]))]

/-- Claim C10: ` updateAnnotation` with a known id rewrites only the text
of that one annotation — steps, tracked tabs, metadata and every other
annotation of the session, and the rest of the background state, are
unchanged — while an unknown id mutates nothing and returns a negative
result. -/
theorem c10_update_annotation_frame (s s2 : BgState)
    (sess sess2 : RecordingSession) (pre post : List Annotation)
    (a : Annotation) (annId txt : String)
    (hcur : s.currentSession = some sess)
    (hanns : sess.annotations = pre ++ a :: post)
    (haid : a.id = annId)
    (hpre : ∀ b ∈ pre, b.id ≠ annId)
    (hcur2 : s2.currentSession = some sess2)
    (hunk : ∀ b ∈ sess2.annotations, b.id ≠ annId) :
    updateAnnotation s annId txt =
      ({ s with
          currentSession := some ({ sess with annotations := pre ++ ({ a with text := txt }) :: post }) },
        some ({ a with text := txt })) ∧
    updateAnnotation s2 annId txt = (s2, none) := by
  constructor
  · unfold updateAnnotation
    rw [hcur]
    simp only [hanns]
    rw [findAnn_append pre post a annId haid hpre,
      setAnnText_append pre post a annId txt haid hpre]
  · unfold updateAnnotation
    simp only [hcur2, findAnn_none sess2.annotations annId hunk]

/-- Concrete input state for the C10 witness. -/
def c10Sess : RecordingSession :=
  { id := "s0", title := "T", startTime := 0, endTime := none, isRecording := true,
    hasAudio := false, steps := [], annotations := [⟨"a1", 1, "one"⟩, ⟨"a2", 2, "two"⟩],
    trackedTabIds := [1] }

def c10S : BgState := { currentSession := some c10Sess, readyTabs := [], nextId := 5 }

def c10Sess2 : RecordingSession :=
  { id := "s1", title := "U", startTime := 0, endTime := none, isRecording := true,
    hasAudio := false, steps := [], annotations := [⟨"b1", 1, "x"⟩],
    trackedTabIds := [2] }

def c10S2 : BgState := { currentSession := some c10Sess2, readyTabs := [], nextId := 6 }

/-- Witness for C10 on a concrete two-annotation session. -/
theorem c10_update_annotation_frame_witness :
    (c10S.currentSession = some c10Sess ∧
    c10Sess.annotations = [⟨"a1", 1, "one"⟩] ++ (⟨"a2", 2, "two"⟩ : Annotation) :: [] ∧
    (⟨"a2", 2, "two"⟩ : Annotation).id = "a2" ∧
    c10S2.currentSession = some c10Sess2 ∧
    (∀ b ∈ c10Sess2.annotations, b.id ≠ "a2")) ∧
    ( updateAnnotation c10S "a2" "TWO" =
      ({ c10S with
          currentSession := some ({ c10Sess with annotations := [⟨"a1", 1, "one"⟩] ++ ({ (⟨"a2", 2, "two"⟩ : Annotation) with text := "TWO" }) :: [] }) },
        some ({ (⟨"a2", 2, "two"⟩ : Annotation) with text := "TWO" })) ∧
    updateAnnotation c10S2 "a2" "TWO" = (c10S2, none)) :=
  ⟨⟨rfl, rfl, rfl, rfl, by decide⟩,
    c10_update_annotation_frame c10S c10S2 c10Sess c10Sess2
      [⟨"a1", 1, "one"⟩] [] ⟨"a2", 2, "two"⟩ "a2" "TWO" rfl rfl rfl
      (by decide) rfl (by decide)⟩

/-! # C1: interaction records from untracked tabs -/

/-- A recording session that tracks only tab 1, with no steps yet. -/
def c1State : BgState :=
  { currentSession := some
      { id := "session_0", title := "T", startTime := 0, endTime := none,
        isRecording := true, hasAudio := false, steps := [], annotations := [],
        trackedTabIds := [1] },
    readyTabs := [1], nextId := 1 }

/-- Counterexample to C1 as stated: while recording with tracked-tab set
`[1]`, an input record from the untracked tab 2 is NOT dropped —
`addStep` appends the step (with `tabId = 2`, which was not in the
tracked set at the moment the step was recorded) and only afterwards
adds tab 2 to the tracked set. -/
theorem c1_untracked_tab_counterexample :
    (c1State.currentSession.elim false (fun sess => sess.trackedTabIds.contains 2)) = false ∧
    (addStep c1State .input { timestamp := some 5 } 2 100 none none).2 =
      some { id := "step_1", timestamp := 5, stepType := .input, tabId := 2,
             tabTitle := "Unknown", url := "", screenshotData := none,
             element := none, inputValue := none, isSensitive := none } ∧
    (addStep c1State .input { timestamp := some 5 } 2 100 none none).1 =
      { currentSession := some
          { id := "session_0", title := "T", startTime := 0, endTime := none,
            isRecording := true, hasAudio := false,
            steps := [{ id := "step_1", timestamp := 5, stepType := .input, tabId := 2,
                        tabTitle := "Unknown", url := "", screenshotData := none,
                        element := none, inputValue := none, isSensitive := none }],
            annotations := [],
            trackedTabIds := [1, 2] },
        readyTabs := [1], nextId := 2 } := by
  refine ⟨rfl, ?_, ?_⟩ <;> rfl

/-- Amended C1: while a session is recording, `addStep` appends a step
for an interaction record from any tab, tracked or not; immediately
after the append the originating tab is a member of the tracked-tab set
(it is added if new).  A record is dropped only when no session exists
or the session is not recording. -/
theorem c1_amended_step_always_appended (s s0 : BgState) (sess : RecordingSession)
    (ty : StepType) (data : StepData) (tabId now : Nat) (tabInfo : Option TabInfo)
    (shot : Option String)
    (hcur : s.currentSession = some sess)
    (hrec : sess.isRecording = true)
    (hdrop : ∀ sess0, s0.currentSession = some sess0 → sess0.isRecording = false) :
    (∃ st sess',
      (addStep s ty data tabId now tabInfo shot).2 = some st ∧
      (addStep s ty data tabId now tabInfo shot).1.currentSession = some sess' ∧
      st.tabId = tabId ∧
      sess'.steps = sess.steps ++ [st] ∧
      sess'.trackedTabIds.contains tabId = true) ∧
    addStep s0 ty data tabId now tabInfo shot = (s0, none) := by
  constructor
  · unfold addStep
    simp only [hcur, hrec]
    by_cases htr : sess.trackedTabIds.contains tabId
    · simp only [htr, if_true, if_false]
      exact ⟨_, _, rfl, rfl, rfl, rfl, htr⟩
    · simp only [htr, if_true, if_false, Bool.false_eq_true]
      exact ⟨_, _, rfl, rfl, rfl, rfl, by simp⟩
  · unfold addStep
    cases hc0 : s0.currentSession with
    | none => rfl
    | some sess0 => simp [hdrop sess0 hc0]

/-- Witness for the amended C1 at a concrete untracked-tab record and a
concrete stopped session. -/
theorem c1_amended_step_always_appended_witness :
    (c1State.currentSession = some
      { id := "session_0", title := "T", startTime := 0, endTime := none,
        isRecording := true, hasAudio := false, steps := [], annotations := [],
        trackedTabIds := [1] } ∧
    (⟨"session_0", "T", 0, none, true, false, [], [], [1]⟩ :
        RecordingSession).isRecording = true ∧
    (∀ sess0,
      (⟨none, [], 0⟩ : BgState).currentSession = some sess0 →
      sess0.isRecording = false)) ∧
    ((∃ st sess',
      (addStep c1State .input { timestamp := some 5 } 2 100 none none).2 = some st ∧
      (addStep c1State .input { timestamp := some 5 } 2 100 none none).1.currentSession =
        some sess' ∧
      st.tabId = 2 ∧
      sess'.steps =
        (⟨"session_0", "T", 0, none, true, false, [], [], [1]⟩ :
          RecordingSession).steps ++ [st] ∧
      sess'.trackedTabIds.contains 2 = true) ∧
    addStep ⟨none, [], 0⟩ .input { timestamp := some 5 } 2 100 none none =
      ((⟨none, [], 0⟩ : BgState), none)) :=
  ⟨⟨rfl, rfl, by intro sess0 h; cases h⟩,
    c1_amended_step_always_appended c1State ⟨none, [], 0⟩ _ .input
      { timestamp := some 5 } 2 100 none none rfl rfl
      (by intro sess0 h; cases h)⟩

/-! # C2 and C7: selector synthesis -/

theorem two_le_length_of_two_mem {α : Type} {l : List α} {a b : α}
    (ha : a ∈ l) (hb : b ∈ l) (hab : a ≠ b) : 2 ≤ l.length := by
  induction l with
  | nil => cases ha
  | cons c t ih =>
    rcases List.mem_cons.mp ha with rfl | ha'
    · rcases List.mem_cons.mp hb with rfl | hb'
      · exact absurd rfl hab
      · have ht : 1 ≤ t.length := List.length_pos.mpr (List.ne_nil_of_mem hb')
        simp only [List.length_cons]
        omega
    · have ht : 1 ≤ t.length := List.length_pos.mpr (List.ne_nil_of_mem ha')
      simp only [List.length_cons]
      omega

theorem isUniqueId_false_of_collision (doc : Doc) (e1 e2 : DomElem) (i : String)
    (h1 : e1 ∈ doc) (h2 : e2 ∈ doc) (hne : e1 ≠ e2)
    (hi1 : e1.idAttr = i) (hi2 : e2.idAttr = i) (hnz : i ≠ "") :
    isUniqueId doc i = false := by
  have hm1 : matchesChain doc e1 [.idS i] = true := by
    simp [matchesChain, matchesSimple, revMatch, hi1, hnz]
  have hm2 : matchesChain doc e2 [.idS i] = true := by
    simp [matchesChain, matchesSimple, revMatch, hi2, hnz]
  have hcount : 2 ≤ countSel doc [.idS i] := by
    unfold countSel
    rw [List.countP_eq_length_filter]
    exact two_le_length_of_two_mem
      (List.mem_filter.mpr ⟨h1, hm1⟩) (List.mem_filter.mpr ⟨h2, hm2⟩) hne
  unfold isUniqueId
  simp only [beq_eq_false_iff_ne, ne_eq]
  omega

theorem tryAttrList_shape (doc : Doc) (e : DomElem) (l : List String) (s : Sel)
    (h : tryAttrList doc e l = some s) : ∃ a v, s = .path [.attrS a v] := by
  induction l with
  | nil => simp [tryAttrList] at h
  | cons a rest ih =>
    unfold tryAttrList at h
    cases hga : getAttr e a with
    | none =>
      simp only [hga] at h
      exact ih h
    | some v =>
      simp only [hga] at h
      by_cases hv : v != ""
      · rw [if_pos hv] at h
        by_cases hu : isUnique doc (.path [.attrS a v])
        · rw [if_pos hu] at h
          exact ⟨a, v, (Option.some.injEq _ _ ▸ h).symm⟩
        · rw [if_neg hu] at h
          exact ih h
      · rw [if_neg hv] at h
        exact ih h

theorem tryClassList_shape (doc : Doc) (tag : String) (l : List String) (s : Sel)
    (h : tryClassList doc tag l = some s) : ∃ t cs, s = .path [.tagClasses t cs] := by
  induction l with
  | nil => simp [tryClassList] at h
  | cons c rest ih =>
    unfold tryClassList at h
    by_cases hu : isUnique doc (.path [.tagClasses tag [c]])
    · rw [if_pos hu] at h
      exact ⟨tag, [c], (Option.some.injEq _ _ ▸ h).symm⟩
    · rw [if_neg hu] at h
      exact ih h

theorem tryClassSelector_shape (doc : Doc) (e : DomElem) (s : Sel)
    (h : tryClassSelector doc e = some s) : ∃ t cs, s = .path [.tagClasses t cs] := by
  unfold tryClassSelector at h
  simp only [] at h
  cases hl : tryClassList doc e.tag (getStableClasses e) with
  | some s' =>
    simp only [hl] at h
    exact (Option.some.injEq _ _ ▸ h) ▸
      tryClassList_shape doc e.tag (getStableClasses e) s' hl
  | none =>
    simp only [hl] at h
    by_cases hc : decide (2 ≤ (getStableClasses e).length) &&
        isUnique doc (.path [.tagClasses e.tag (getStableClasses e)])
    · rw [if_pos hc] at h
      exact ⟨e.tag, getStableClasses e, (Option.some.injEq _ _ ▸ h).symm⟩
    · rw [if_neg hc] at h
      cases h

theorem getSimpleSelector_ne_idS (doc : Doc) (p : List Nat) (i : String) :
    getSimpleSelector doc p ≠ .idS i := by
  unfold getSimpleSelector
  cases elemAt doc p with
  | none => simp
  | some e =>
    cases hsc : getStableClasses e with
    | nil => simp [hsc]
    | cons c rest =>
      simp only [hsc]
      split <;> simp

theorem isIdSingleton_cons_of_ne_nil (x : SimpleSel) (l : List SimpleSel)
    (h : l ≠ []) : isIdSingleton (.path (x :: l)) = false := by
  cases l with
  | nil => exact absurd rfl h
  | cons y t =>
    cases x <;> rfl

theorem isIdSingleton_map {α : Type} (f : α → SimpleSel)
    (hf : ∀ q i, f q ≠ .idS i) (l : List α) :
    isIdSingleton (.path (l.map f)) = false := by
  cases l with
  | nil => rfl
  | cons q rest =>
    cases rest with
    | nil =>
      cases hfq : f q with
      | idS i => exact absurd hfq (hf q i)
      | attrS a v => simp [isIdSingleton, List.map_cons, hfq]
      | tagClasses t cs => simp [isIdSingleton, List.map_cons, hfq]
      | tagNth t n => simp [isIdSingleton, List.map_cons, hfq]
    | cons q2 rest2 =>
      simp only [List.map_cons]
      exact isIdSingleton_cons_of_ne_nil _ _ (by simp)

theorem isIdSingleton_buildPathSelector (doc : Doc) (q p : List Nat) :
    isIdSingleton (buildPathSelector doc q p) = false := by
  unfold buildPathSelector
  simp only [List.cons_append, List.nil_append]
  exact isIdSingleton_cons_of_ne_nil _ _ (by simp)

theorem isIdSingleton_buildFullPathSelector (doc : Doc) (p : List Nat) :
    isIdSingleton (buildFullPathSelector doc p) = false := by
  unfold buildFullPathSelector
  exact isIdSingleton_map _ (fun k i => getSimpleSelector_ne_idS doc (p.take k) i) _

theorem isIdSingleton_selectorAfterId (doc : Doc) (e : DomElem) :
    isIdSingleton (selectorAfterId doc e) = false := by
  unfold selectorAfterId
  cases hA : tryAttributeSelector doc e with
  | some s =>
    obtain ⟨a, v, rfl⟩ := tryAttrList_shape doc e STABLE_ATTRIBUTES s hA
    rfl
  | none =>
    cases hC : tryClassSelector doc e with
    | some s =>
      obtain ⟨t, cs, rfl⟩ := tryClassSelector_shape doc e s hC
      rfl
    | none =>
      cases hF : findNearestIdAncestor doc e.path with
      | some q =>
        by_cases hu : isUnique doc (buildPathSelector doc q e.path)
        · simp only [hu, if_true]
          exact isIdSingleton_buildPathSelector doc q e.path
        · simp only [hu, if_false]
          exact isIdSingleton_buildFullPathSelector doc e.path
      | none => exact isIdSingleton_buildFullPathSelector doc e.path

/-- Claim C2: when an element's id collides with another element's id,
the `#id` shortcut is refused for both elements (`tryIdSelector` returns
nothing), `generateSelector` falls through to the following tiers, and
the generated selector is never the bare `#id` selector. -/
theorem c2_id_collision_falls_through (doc : Doc) (e1 e2 : DomElem)
    (h1 : e1 ∈ doc) (h2 : e2 ∈ doc) (hne : e1 ≠ e2)
    (hid : e1.idAttr = e2.idAttr) (hnz : e1.idAttr ≠ "") :
    tryIdSelector doc e1 = none ∧ tryIdSelector doc e2 = none ∧
    generateSelector doc e1 = selectorAfterId doc e1 ∧
    generateSelector doc e2 = selectorAfterId doc e2 ∧
    isIdSingleton (generateSelector doc e1) = false ∧
    isIdSingleton (generateSelector doc e2) = false := by
  have hu1 : isUniqueId doc e1.idAttr = false :=
    isUniqueId_false_of_collision doc e1 e2 e1.idAttr h1 h2 hne rfl hid.symm hnz
  have hu2 : isUniqueId doc e2.idAttr = false := hid ▸ hu1
  have ht1 : tryIdSelector doc e1 = none := by
    simp [tryIdSelector, hu1]
  have ht2 : tryIdSelector doc e2 = none := by
    simp [tryIdSelector, hu2]
  have hg1 : generateSelector doc e1 = selectorAfterId doc e1 := by
    unfold generateSelector
    rw [ht1]
  have hg2 : generateSelector doc e2 = selectorAfterId doc e2 := by
    unfold generateSelector
    rw [ht2]
  exact ⟨ht1, ht2, hg1, hg2,
    hg1 ▸ isIdSingleton_selectorAfterId doc e1,
    hg2 ▸ isIdSingleton_selectorAfterId doc e2⟩

/-- Witness for C2: a concrete two-element document in which both
elements carry the colliding id "dup". -/
theorem c2_id_collision_falls_through_witness :
    ((⟨[0], "div", "dup", [], [("data-testid", "x")]⟩ : DomElem) ∈
      ([⟨[0], "div", "dup", [], [("data-testid", "x")]⟩, ⟨[1], "span", "dup", [], []⟩] : Doc) ∧
    (⟨[1], "span", "dup", [], []⟩ : DomElem) ∈
      ([⟨[0], "div", "dup", [], [("data-testid", "x")]⟩, ⟨[1], "span", "dup", [], []⟩] : Doc) ∧
    (⟨[0], "div", "dup", [], [("data-testid", "x")]⟩ : DomElem) ≠
      ⟨[1], "span", "dup", [], []⟩ ∧
    (⟨[0], "div", "dup", [], [("data-testid", "x")]⟩ : DomElem).idAttr =
      (⟨[1], "span", "dup", [], []⟩ : DomElem).idAttr ∧
    (⟨[0], "div", "dup", [], [("data-testid", "x")]⟩ : DomElem).idAttr ≠ "") ∧
    (tryIdSelector [⟨[0], "div", "dup", [], [("data-testid", "x")]⟩, ⟨[1], "span", "dup", [], []⟩]
        ⟨[0], "div", "dup", [], [("data-testid", "x")]⟩ = none ∧
    tryIdSelector [⟨[0], "div", "dup", [], [("data-testid", "x")]⟩, ⟨[1], "span", "dup", [], []⟩]
        ⟨[1], "span", "dup", [], []⟩ = none ∧
    generateSelector [⟨[0], "div", "dup", [], [("data-testid", "x")]⟩, ⟨[1], "span", "dup", [], []⟩]
        ⟨[0], "div", "dup", [], [("data-testid", "x")]⟩ =
      selectorAfterId [⟨[0], "div", "dup", [], [("data-testid", "x")]⟩, ⟨[1], "span", "dup", [], []⟩]
        ⟨[0], "div", "dup", [], [("data-testid", "x")]⟩ ∧
    generateSelector [⟨[0], "div", "dup", [], [("data-testid", "x")]⟩, ⟨[1], "span", "dup", [], []⟩]
        ⟨[1], "span", "dup", [], []⟩ =
      selectorAfterId [⟨[0], "div", "dup", [], [("data-testid", "x")]⟩, ⟨[1], "span", "dup", [], []⟩]
        ⟨[1], "span", "dup", [], []⟩ ∧
    isIdSingleton (generateSelector
        [⟨[0], "div", "dup", [], [("data-testid", "x")]⟩, ⟨[1], "span", "dup", [], []⟩]
        ⟨[0], "div", "dup", [], [("data-testid", "x")]⟩) = false ∧
    isIdSingleton (generateSelector
        [⟨[0], "div", "dup", [], [("data-testid", "x")]⟩, ⟨[1], "span", "dup", [], []⟩]
        ⟨[1], "span", "dup", [], []⟩) = false) :=
  ⟨⟨by decide, by decide, by decide, by decide, by decide⟩,
    c2_id_collision_falls_through _ _ _
      (by decide) (by decide) (by decide) (by decide) (by decide)⟩

theorem isInvalidSel_selectorAfterId (doc : Doc) (e : DomElem) :
    isInvalidSel (selectorAfterId doc e) = false := by
  unfold selectorAfterId
  cases hA : tryAttributeSelector doc e with
  | some s =>
    obtain ⟨a, v, rfl⟩ := tryAttrList_shape doc e STABLE_ATTRIBUTES s hA
    rfl
  | none =>
    cases hC : tryClassSelector doc e with
    | some s =>
      obtain ⟨t, cs, rfl⟩ := tryClassSelector_shape doc e s hC
      rfl
    | none =>
      cases hF : findNearestIdAncestor doc e.path with
      | some q =>
        by_cases hu : isUnique doc (buildPathSelector doc q e.path)
        · simp only [hu, if_true]
          rfl
        · simp only [hu, if_false]
          rfl
      | none => rfl

/-- Claim C7: a candidate selector whose document query raises a syntax
error is treated as not unique (`isUnique` catches the error and returns
false, so the algorithm proceeds to its next tier, and no error reaches
the caller), and `generateSelector` returns a well-formed selector for
every element — never the invalid form, with no error condition. -/
theorem c7_selector_errors_swallowed (doc : Doc) (e : DomElem) (raw : String) :
    queryCount doc (Sel.invalid raw) = .error () ∧
    isUnique doc (Sel.invalid raw) = false ∧
    isInvalidSel (generateSelector doc e) = false := by
  refine ⟨rfl, rfl, ?_⟩
  unfold generateSelector
  cases hI : tryIdSelector doc e with
  | some s =>
    unfold tryIdSelector at hI
    by_cases hc : e.idAttr != "" && isUniqueId doc e.idAttr
    · rw [if_pos hc] at hI
      have hs : s = Sel.path [SimpleSel.idS e.idAttr] := (Option.some.injEq _ _ ▸ hI).symm
      subst hs
      rfl
    · rw [if_neg hc] at hI
      cases hI
  | none => exact isInvalidSel_selectorAfterId doc e

/-! # C6: masking of sensitive values (noninterference) -/

theorem recordedValueFor_of_sensitive (s : InputState) (e : FieldElem)
    (h : isSensitiveField e = true) : recordedValueFor s e = ("********", true) := by
  unfold isSensitiveField at h
  unfold recordedValueFor
  cases hk : e.kind with
  | select =>
    simp only [hk] at h
    exact absurd h Bool.false_ne_true
  | other =>
    simp only [hk] at h
    exact absurd h Bool.false_ne_true
  | input =>
    simp only [hk] at h
    simp [hk, getRecordableValue, isSensitiveField, h, maskValue]
  | textarea =>
    simp only [hk] at h
    simp [hk, getRecordableValue, isSensitiveField, h, maskValue]

theorem maskedOk_recordInputChange (s : InputState) (e : FieldElem) (t : Nat)
    (H : ∀ m ∈ s.emitted, MaskedOk m) :
    ∀ m ∈ (recordInputChange s e t).emitted, MaskedOk m := by
  intro m hm
  cases hs : s.recordingStartTime with
  | none =>
    simp only [recordInputChange, hs] at hm
    exact H m hm
  | some start =>
    by_cases hlast : getK s.lastRecordedValues e.key = some (recordedValueFor s e).1
    · rw [recordInputChange_of_last_eq s e t hlast] at hm
      exact H m hm
    · have hem : (recordInputChange s e t).emitted = s.emitted ++
          [{ elem := e, value := (recordedValueFor s e).1,
             isSensitive := (recordedValueFor s e).2, timestamp := t - start }] := by
        simp [recordInputChange, hs, hlast]
      rw [hem] at hm
      rcases List.mem_append.mp hm with hold | hnew
      · exact H m hold
      · have hm2 := List.mem_singleton.mp hnew
        subst hm2
        intro hsen
        have hv := recordedValueFor_of_sensitive s e hsen
        rw [hv]
        exact ⟨rfl, rfl⟩

theorem maskedOk_fireTimer (s : InputState) (e : FieldElem) (d : Nat)
    (H : ∀ m ∈ s.emitted, MaskedOk m) :
    ∀ m ∈ (fireTimer s e d).emitted, MaskedOk m := by
  intro m hm
  exact maskedOk_recordInputChange s e d H m hm

theorem maskedOk_foldl_fire (l : List (FieldElem × Nat)) (s : InputState)
    (H : ∀ m ∈ s.emitted, MaskedOk m) :
    ∀ m ∈ (l.foldl (fun st p => fireTimer st p.1 p.2) s).emitted, MaskedOk m := by
  induction l generalizing s with
  | nil => exact H
  | cons p rest ih =>
    exact ih (fireTimer s p.1 p.2) (maskedOk_fireTimer s p.1 p.2 H)

theorem maskedOk_fireDue (s : InputState) (t : Nat)
    (H : ∀ m ∈ s.emitted, MaskedOk m) :
    ∀ m ∈ (fireDue s t).emitted, MaskedOk m :=
  maskedOk_foldl_fire _ s H

theorem maskedOk_handleInputEvent (s : InputState) (e : FieldElem) (t : Nat)
    (H : ∀ m ∈ s.emitted, MaskedOk m) :
    ∀ m ∈ (handleInputEvent s e t).emitted, MaskedOk m := by
  intro m hm
  unfold handleInputEvent at hm
  cases hs : s.recordingStartTime with
  | none =>
    simp only [hs] at hm
    exact H m hm
  | some start =>
    simp only [hs] at hm
    split at hm
    · exact H m hm
    · split at hm
      · exact H m hm
      · split at hm
        · exact H m hm
        · split at hm
          · exact maskedOk_recordInputChange
              { s with recordingStartTime := some start, timers := cancelTimerOf s.timers e }
              e t (fun m' hm' => H m' hm') m hm
          · exact H m hm

theorem maskedOk_handleBlurEvent (s : InputState) (e : FieldElem) (t : Nat)
    (H : ∀ m ∈ s.emitted, MaskedOk m) :
    ∀ m ∈ (handleBlurEvent s e t).emitted, MaskedOk m := by
  intro m hm
  unfold handleBlurEvent at hm
  cases hs : s.recordingStartTime with
  | none =>
    simp only [hs] at hm
    exact H m hm
  | some start =>
    simp only [hs] at hm
    split at hm
    · exact maskedOk_recordInputChange
        { s with recordingStartTime := some start, timers := deleteTimerOf s.timers e }
        e t (fun m' hm' => H m' hm') m hm
    · exact H m hm

theorem maskedOk_stepEv (s : InputState) (ev : PageEv)
    (H : ∀ m ∈ s.emitted, MaskedOk m) :
    ∀ m ∈ (stepEv s ev).emitted, MaskedOk m := by
  cases ev with
  | inp e t v =>
    exact maskedOk_handleInputEvent _ e t (maskedOk_fireDue s t H)
  | blur e t =>
    exact maskedOk_handleBlurEvent _ e t (maskedOk_fireDue s t H)

theorem maskedOk_run (s : InputState) (evs : List PageEv)
    (H : ∀ m ∈ s.emitted, MaskedOk m) :
    ∀ m ∈ (run s evs).emitted, MaskedOk m := by
  induction evs generalizing s with
  | nil => exact H
  | cons ev rest ih => exact ih (stepEv s ev) (maskedOk_stepEv s ev H)

/-- Claim C6: in any run of the input handler, every message emitted for
a field classified sensitive carries the fixed masked placeholder as its
value and a set sensitivity flag; consequently any two raw values typed
into the same sensitive field produce identical recorded values
(two-run noninterference of the recorded value from the secret). -/
theorem c6_sensitive_values_masked (cv : List (Nat × String)) (startTime : Nat)
    (evs : List PageEv) (m : InputMsg) (e : FieldElem) (v1 v2 : String)
    (hm : m ∈ (run (initStarted cv startTime) evs).emitted)
    (hs : isSensitiveField m.elem = true)
    (he : isSensitiveField e = true) :
    m.value = "********" ∧ m.isSensitive = true ∧
    (getRecordableValue e v1).1 = "********" ∧
    (getRecordableValue e v1).1 = (getRecordableValue e v2).1 ∧
    (getRecordableValue e v1).2 = true := by
  have H0 : ∀ m' ∈ (initStarted cv startTime).emitted, MaskedOk m' := by
    intro m' hm'
    simp [initStarted, startInputTracking] at hm'
  have hmk := maskedOk_run (initStarted cv startTime) evs H0 m hm hs
  refine ⟨hmk.1, hmk.2, ?_, ?_, ?_⟩ <;> simp [getRecordableValue, maskValue, he]

/-- Witness for C6: a password-classified field; the raw keystrokes
"hunter2" never reach the emitted message. -/
theorem c6_sensitive_values_masked_witness :
    ((⟨⟨9, .input, "password", false, true⟩, "********", true, 20⟩ : InputMsg) ∈
      (run (initStarted [] 0)
        [.inp ⟨9, .input, "password", false, true⟩ 10 "hunter2",
         .blur ⟨9, .input, "password", false, true⟩ 20]).emitted ∧
    isSensitiveField
      (⟨⟨9, .input, "password", false, true⟩, "********", true, 20⟩ : InputMsg).elem = true ∧
    isSensitiveField (⟨9, .input, "password", false, true⟩ : FieldElem) = true) ∧
    ((⟨⟨9, .input, "password", false, true⟩, "********", true, 20⟩ : InputMsg).value =
        "********" ∧
    (⟨⟨9, .input, "password", false, true⟩, "********", true, 20⟩ : InputMsg).isSensitive =
        true ∧
    (getRecordableValue ⟨9, .input, "password", false, true⟩ "hunter2").1 = "********" ∧
    (getRecordableValue ⟨9, .input, "password", false, true⟩ "hunter2").1 =
      (getRecordableValue ⟨9, .input, "password", false, true⟩ "letmein").1 ∧
    (getRecordableValue ⟨9, .input, "password", false, true⟩ "hunter2").2 = true) :=
  ⟨⟨by decide, by decide, by decide⟩,
    c6_sensitive_values_masked [] 0
      [.inp ⟨9, .input, "password", false, true⟩ 10 "hunter2",
       .blur ⟨9, .input, "password", false, true⟩ 20]
      ⟨⟨9, .input, "password", false, true⟩, "********", true, 20⟩
      ⟨9, .input, "password", false, true⟩ "hunter2" "letmein"
      (by decide) (by decide) (by decide)⟩

/-! # C9: pending debounce timers are flushed on stop -/

theorem recordInputChange_eq_of_emit (s : InputState) (e : FieldElem) (t start : Nat)
    (hs : s.recordingStartTime = some start)
    (hlast : ¬ getK s.lastRecordedValues e.key = some (recordedValueFor s e).1) :
    recordInputChange s e t =
      { s with lastRecordedValues := setK s.lastRecordedValues e.key (recordedValueFor s e).1,
               emitted := s.emitted ++
                 [{ elem := e, value := (recordedValueFor s e).1,
                    isSensitive := (recordedValueFor s e).2, timestamp := t - start }] } := by
  simp [recordInputChange, hs, hlast]

theorem recordInputChange_start (s : InputState) (e : FieldElem) (t : Nat) :
    (recordInputChange s e t).recordingStartTime = s.recordingStartTime := by
  cases hs : s.recordingStartTime with
  | none => simp [recordInputChange, hs]
  | some start =>
    by_cases hlast : getK s.lastRecordedValues e.key = some (recordedValueFor s e).1
    · rw [recordInputChange_of_last_eq s e t hlast]
      exact hs
    · rw [recordInputChange_eq_of_emit s e t start hs hlast]
      exact hs

theorem recordInputChange_timers (s : InputState) (e : FieldElem) (t : Nat) :
    (recordInputChange s e t).timers = s.timers := by
  cases hs : s.recordingStartTime with
  | none => simp [recordInputChange, hs]
  | some start =>
    by_cases hlast : getK s.lastRecordedValues e.key = some (recordedValueFor s e).1
    · rw [recordInputChange_of_last_eq s e t hlast]
    · rw [recordInputChange_eq_of_emit s e t start hs hlast]

theorem recordInputChange_emitted_mono (s : InputState) (e : FieldElem) (t : Nat)
    (m : InputMsg) (hm : m ∈ s.emitted) : m ∈ (recordInputChange s e t).emitted := by
  cases hs : s.recordingStartTime with
  | none => simpa [recordInputChange, hs] using hm
  | some start =>
    by_cases hlast : getK s.lastRecordedValues e.key = some (recordedValueFor s e).1
    · rw [recordInputChange_of_last_eq s e t hlast]
      exact hm
    · rw [recordInputChange_eq_of_emit s e t start hs hlast]
      exact List.mem_append_left _ hm

theorem recordInputChange_lastRecorded_ne (s : InputState) (x : FieldElem) (t k : Nat)
    (hk : k ≠ x.key) :
    getK (recordInputChange s x t).lastRecordedValues k = getK s.lastRecordedValues k := by
  cases hs : s.recordingStartTime with
  | none => simp [recordInputChange, hs]
  | some start =>
    by_cases hlast : getK s.lastRecordedValues x.key = some (recordedValueFor s x).1
    · rw [recordInputChange_of_last_eq s x t hlast]
    · rw [recordInputChange_eq_of_emit s x t start hs hlast]
      exact getK_setK_ne _ _ _ _ hk

/-- Well-formedness of a timer-map list: entries are input/textarea
elements and keys are unique. -/
def TimerListOk (l : List (FieldElem × Option Nat)) : Prop :=
  (∀ p ∈ l, p.1.kind = ElemKind.input ∨ p.1.kind = ElemKind.textarea) ∧
  (l.map (fun p => p.1.key)).Nodup

theorem timerListOk_nil : TimerListOk [] :=
  ⟨fun p hp => absurd hp (List.not_mem_nil p), List.nodup_nil⟩

theorem timerListOk_deleteTimerOf (l : List (FieldElem × Option Nat)) (e : FieldElem)
    (h : TimerListOk l) : TimerListOk (deleteTimerOf l e) := by
  constructor
  · intro p hp
    exact h.1 p (List.mem_of_mem_filter hp)
  · exact ((List.filter_sublist l).map (fun p => p.1.key)).nodup h.2

theorem cancelTimerOf_keys (l : List (FieldElem × Option Nat)) (e : FieldElem) :
    (cancelTimerOf l e).map (fun p => p.1.key) = l.map (fun p => p.1.key) := by
  unfold cancelTimerOf
  rw [List.map_map]
  apply List.map_congr_left
  intro p hp
  simp only [Function.comp_apply]
  split <;> rfl

theorem timerListOk_cancelTimerOf (l : List (FieldElem × Option Nat)) (e : FieldElem)
    (h : TimerListOk l) : TimerListOk (cancelTimerOf l e) := by
  constructor
  · intro p hp
    unfold cancelTimerOf at hp
    rcases List.mem_map.mp hp with ⟨q, hq, hqe⟩
    by_cases hk : q.1.key == e.key
    · rw [if_pos hk] at hqe
      have : p.1 = q.1 := by rw [← hqe]
      rw [this]
      exact h.1 q hq
    · rw [if_neg hk] at hqe
      rw [← hqe]
      exact h.1 q hq
  · rw [cancelTimerOf_keys]
    exact h.2

theorem setTimerOf_keys_sub (l : List (FieldElem × Option Nat)) (e : FieldElem) (d k : Nat)
    (hk : k ∈ (setTimerOf l e d).map (fun p => p.1.key)) :
    k = e.key ∨ k ∈ l.map (fun p => p.1.key) := by
  induction l with
  | nil =>
    simp [setTimerOf] at hk
    exact Or.inl hk
  | cons p rest ih =>
    by_cases hpk : p.1.key == e.key
    · simp only [setTimerOf, hpk, if_true] at hk
      rcases List.mem_cons.mp hk with rfl | hk'
      · exact Or.inl rfl
      · exact Or.inr (List.mem_cons_of_mem _ hk')
    · simp only [setTimerOf, hpk, if_false] at hk
      rcases List.mem_cons.mp hk with rfl | hk'
      · exact Or.inr (List.mem_cons_self _ _)
      · rcases ih hk' with h1 | h2
        · exact Or.inl h1
        · exact Or.inr (List.mem_cons_of_mem _ h2)

theorem timerListOk_setTimerOf (l : List (FieldElem × Option Nat)) (e : FieldElem) (d : Nat)
    (he : e.kind = ElemKind.input ∨ e.kind = ElemKind.textarea)
    (h : TimerListOk l) : TimerListOk (setTimerOf l e d) := by
  induction l with
  | nil =>
    constructor
    · intro p hp
      have hpe : p = (e, some d) := List.mem_singleton.mp hp
      rw [hpe]
      exact he
    · simp [setTimerOf]
  | cons p rest ih =>
    have hrest : TimerListOk rest :=
      ⟨fun q hq => h.1 q (List.mem_cons_of_mem _ hq), (List.nodup_cons.mp h.2).2⟩
    by_cases hpk : p.1.key == e.key
    · constructor
      · intro q hq
        simp only [setTimerOf, hpk, if_true] at hq
        rcases List.mem_cons.mp hq with rfl | hq'
        · exact he
        · exact hrest.1 q hq'
      · simp only [setTimerOf, hpk, if_true, List.map_cons]
        have hpkey : p.1.key = e.key := by simpa using hpk
        have := h.2
        simp only [List.map_cons, List.nodup_cons] at this
        exact List.nodup_cons.mpr ⟨hpkey ▸ this.1, this.2⟩
    · have hih := ih hrest
      constructor
      · intro q hq
        simp only [setTimerOf, hpk, if_false] at hq
        rcases List.mem_cons.mp hq with rfl | hq'
        · exact h.1 q (List.mem_cons_self _ _)
        · exact hih.1 q hq'
      · simp only [setTimerOf, hpk, if_false, List.map_cons]
        refine List.nodup_cons.mpr ⟨?_, hih.2⟩
        intro hmem
        rcases setTimerOf_keys_sub rest e d p.1.key hmem with h1 | h2
        · exact absurd h1 (by simpa using hpk)
        · have := h.2
          simp only [List.map_cons, List.nodup_cons] at this
          exact this.1 h2

theorem reachInv_recordInputChange (s : InputState) (e : FieldElem) (t : Nat)
    (h : ReachInv s) : ReachInv (recordInputChange s e t) := by
  refine ⟨?_, ?_, ?_⟩
  · rw [recordInputChange_start]
    exact h.1
  · constructor
    · intro p hp
      rw [recordInputChange_timers] at hp
      exact h.2.1.1 p hp
    · rw [recordInputChange_timers]
      exact h.2.1.2
  · intro k v hkv
    cases hs : s.recordingStartTime with
    | none =>
      have hid : recordInputChange s e t = s := by simp [recordInputChange, hs]
      rw [hid] at hkv ⊢
      exact h.2.2 k v hkv
    | some start =>
      by_cases hlast : getK s.lastRecordedValues e.key = some (recordedValueFor s e).1
      · rw [recordInputChange_of_last_eq s e t hlast] at hkv ⊢
        exact h.2.2 k v hkv
      · rw [recordInputChange_eq_of_emit s e t start hs hlast] at hkv ⊢
        by_cases hk : k = e.key
        · subst hk
          have hv : some (recordedValueFor s e).1 = some v := by
            rw [← getK_setK_self s.lastRecordedValues e.key (recordedValueFor s e).1]
            exact hkv
          refine ⟨(⟨e, (recordedValueFor s e).1, (recordedValueFor s e).2, t - start⟩ : InputMsg),
            List.mem_append_right _ (List.mem_singleton.mpr rfl), rfl, ?_⟩
          exact Option.some.injEq _ _ ▸ hv
        · have hkv2 : getK s.lastRecordedValues k = some v := by
            rw [← getK_setK_ne s.lastRecordedValues e.key k (recordedValueFor s e).1 hk]
            exact hkv
          obtain ⟨m, hm, h1, h2⟩ := h.2.2 k v hkv2
          exact ⟨m, List.mem_append_left _ hm, h1, h2⟩

theorem reachInv_fireTimer (s : InputState) (e : FieldElem) (d : Nat)
    (h : ReachInv s) : ReachInv (fireTimer s e d) := by
  have h1 := reachInv_recordInputChange s e d h
  exact ⟨h1.1, timerListOk_deleteTimerOf _ e h1.2.1, h1.2.2⟩

theorem reachInv_foldl_fire (l : List (FieldElem × Nat)) (s : InputState)
    (h : ReachInv s) : ReachInv (l.foldl (fun st p => fireTimer st p.1 p.2) s) := by
  induction l generalizing s with
  | nil => exact h
  | cons p rest ih => exact ih (fireTimer s p.1 p.2) (reachInv_fireTimer s p.1 p.2 h)

theorem reachInv_fireDue (s : InputState) (t : Nat) (h : ReachInv s) :
    ReachInv (fireDue s t) :=
  reachInv_foldl_fire _ s h

theorem reachInv_setCurVal (s : InputState) (e : FieldElem) (v : String)
    (h : ReachInv s) : ReachInv (setCurVal s e v) :=
  ⟨h.1, h.2.1, h.2.2⟩

theorem handleInputEvent_eq_none (s : InputState) (e : FieldElem) (t : Nat)
    (hs : s.recordingStartTime = none) : handleInputEvent s e t = s := by
  simp [handleInputEvent, hs]

theorem handleInputEvent_eq_other (s : InputState) (e : FieldElem) (t : Nat)
    (hk : e.kind = ElemKind.other) : handleInputEvent s e t = s := by
  cases hs : s.recordingStartTime with
  | none => exact handleInputEvent_eq_none s e t hs
  | some start => simp [handleInputEvent, hs, hk]

theorem handleInputEvent_eq_ignored (s : InputState) (e : FieldElem) (t : Nat)
    (h2 : e.ignored = true) : handleInputEvent s e t = s := by
  cases hs : s.recordingStartTime with
  | none => exact handleInputEvent_eq_none s e t hs
  | some start =>
    by_cases h1 : e.kind = ElemKind.other
    · simp [handleInputEvent, hs, h1]
    · simp [handleInputEvent, hs, h1, h2]

theorem handleInputEvent_eq_skipped_type (s : InputState) (e : FieldElem) (t : Nat)
    (hk : e.kind = ElemKind.input)
    (h3 : skippedInputTypes.contains e.inputType = true) :
    handleInputEvent s e t = s := by
  cases hs : s.recordingStartTime with
  | none => exact handleInputEvent_eq_none s e t hs
  | some start =>
    by_cases h2 : e.ignored
    · exact handleInputEvent_eq_ignored s e t h2
    · have h3m : e.inputType ∈ skippedInputTypes := by simpa using h3
      simp [handleInputEvent, hs, hk, h2, h3m]

theorem handleInputEvent_eq_immediate (s : InputState) (e : FieldElem) (t start : Nat)
    (hs : s.recordingStartTime = some start)
    (h2 : e.ignored = false)
    (hk : e.kind = ElemKind.select ∨
      (e.kind = ElemKind.input ∧ immediateInputTypes.contains e.inputType = true ∧
        skippedInputTypes.contains e.inputType = false)) :
    handleInputEvent s e t =
      recordInputChange { s with timers := cancelTimerOf s.timers e } e t := by
  rcases hk with hk | ⟨hk, him, hskip⟩
  · simp [handleInputEvent, hs, hk, h2]
  · have himm : e.inputType ∈ immediateInputTypes := by simpa using him
    have hskipm : e.inputType ∉ skippedInputTypes := by simpa using hskip
    simp [handleInputEvent, hs, hk, h2, himm, hskipm]

theorem handleInputEvent_eq_debounce (s : InputState) (e : FieldElem) (t start : Nat)
    (hs : s.recordingStartTime = some start)
    (h2 : e.ignored = false)
    (hk : (e.kind = ElemKind.input ∧ skippedInputTypes.contains e.inputType = false ∧
        immediateInputTypes.contains e.inputType = false) ∨
      e.kind = ElemKind.textarea) :
    handleInputEvent s e t =
      { s with timers := setTimerOf (cancelTimerOf s.timers e) e (t + INPUT_DEBOUNCE_MS) } := by
  rcases hk with ⟨hk, hskip, him⟩ | hk
  · have himm : e.inputType ∉ immediateInputTypes := by simpa using him
    have hskipm : e.inputType ∉ skippedInputTypes := by simpa using hskip
    simp [handleInputEvent, hs, hk, h2, hskipm, himm]
  · simp [handleInputEvent, hs, hk, h2]

theorem handleBlurEvent_eq_none (s : InputState) (e : FieldElem) (t : Nat)
    (hs : s.recordingStartTime = none) : handleBlurEvent s e t = s := by
  simp [handleBlurEvent, hs]

theorem handleBlurEvent_eq_field (s : InputState) (e : FieldElem) (t start : Nat)
    (hs : s.recordingStartTime = some start)
    (hk : e.kind = ElemKind.input ∨ e.kind = ElemKind.textarea) :
    handleBlurEvent s e t =
      recordInputChange { s with timers := deleteTimerOf s.timers e } e t := by
  rcases hk with hk | hk <;> simp [handleBlurEvent, hs, hk]

theorem handleBlurEvent_eq_other (s : InputState) (e : FieldElem) (t start : Nat)
    (hs : s.recordingStartTime = some start)
    (hk : e.kind = ElemKind.select ∨ e.kind = ElemKind.other) :
    handleBlurEvent s e t = s := by
  rcases hk with hk | hk <;> simp [handleBlurEvent, hs, hk]

theorem reachInv_handleInputEvent (s : InputState) (e : FieldElem) (t : Nat)
    (h : ReachInv s) : ReachInv (handleInputEvent s e t) := by
  cases hs : s.recordingStartTime with
  | none =>
    rw [handleInputEvent_eq_none s e t hs]
    exact h
  | some start =>
    by_cases h2 : e.ignored
    · rw [handleInputEvent_eq_ignored s e t h2]
      exact h
    · have h2' : e.ignored = false := by simpa using h2
      cases hk : e.kind with
      | other =>
        rw [handleInputEvent_eq_other s e t hk]
        exact h
      | select =>
        rw [handleInputEvent_eq_immediate s e t start hs h2' (Or.inl hk)]
        exact reachInv_recordInputChange _ e t
          ⟨by rw [hs]; rfl, timerListOk_cancelTimerOf _ e h.2.1, h.2.2⟩
      | textarea =>
        rw [handleInputEvent_eq_debounce s e t start hs h2' (Or.inr hk)]
        exact ⟨by rw [hs]; rfl,
          timerListOk_setTimerOf _ e _ (Or.inr hk) (timerListOk_cancelTimerOf _ e h.2.1),
          h.2.2⟩
      | input =>
        by_cases h3 : skippedInputTypes.contains e.inputType
        · rw [handleInputEvent_eq_skipped_type s e t hk h3]
          exact h
        · have h3' : skippedInputTypes.contains e.inputType = false := by simpa using h3
          by_cases h4 : immediateInputTypes.contains e.inputType
          · rw [handleInputEvent_eq_immediate s e t start hs h2' (Or.inr ⟨hk, h4, h3'⟩)]
            exact reachInv_recordInputChange _ e t
              ⟨by rw [hs]; rfl, timerListOk_cancelTimerOf _ e h.2.1, h.2.2⟩
          · have h4' : immediateInputTypes.contains e.inputType = false := by simpa using h4
            rw [handleInputEvent_eq_debounce s e t start hs h2' (Or.inl ⟨hk, h3', h4'⟩)]
            exact ⟨by rw [hs]; rfl,
              timerListOk_setTimerOf _ e _ (Or.inl hk)
                (timerListOk_cancelTimerOf _ e h.2.1),
              h.2.2⟩

theorem reachInv_handleBlurEvent (s : InputState) (e : FieldElem) (t : Nat)
    (h : ReachInv s) : ReachInv (handleBlurEvent s e t) := by
  cases hs : s.recordingStartTime with
  | none =>
    rw [handleBlurEvent_eq_none s e t hs]
    exact h
  | some start =>
    cases hk : e.kind with
    | select =>
      rw [handleBlurEvent_eq_other s e t start hs (Or.inl hk)]
      exact h
    | other =>
      rw [handleBlurEvent_eq_other s e t start hs (Or.inr hk)]
      exact h
    | input =>
      rw [handleBlurEvent_eq_field s e t start hs (Or.inl hk)]
      exact reachInv_recordInputChange _ e t
        ⟨by rw [hs]; rfl, timerListOk_deleteTimerOf _ e h.2.1, h.2.2⟩
    | textarea =>
      rw [handleBlurEvent_eq_field s e t start hs (Or.inr hk)]
      exact reachInv_recordInputChange _ e t
        ⟨by rw [hs]; rfl, timerListOk_deleteTimerOf _ e h.2.1, h.2.2⟩

theorem reachInv_stepEv (s : InputState) (ev : PageEv) (h : ReachInv s) :
    ReachInv (stepEv s ev) := by
  cases ev with
  | inp e t v =>
    exact reachInv_handleInputEvent _ e t
      (reachInv_setCurVal _ e v (reachInv_fireDue s t h))
  | blur e t =>
    exact reachInv_handleBlurEvent _ e t (reachInv_fireDue s t h)

theorem reachInv_run (s : InputState) (evs : List PageEv) (h : ReachInv s) :
    ReachInv (run s evs) := by
  induction evs generalizing s with
  | nil => exact h
  | cons ev rest ih => exact ih (stepEv s ev) (reachInv_stepEv s ev h)

theorem reachInv_initStarted (cv : List (Nat × String)) (startTime : Nat) :
    ReachInv (initStarted cv startTime) := by
  refine ⟨rfl, timerListOk_nil, ?_⟩
  intro k v hkv
  simp [initStarted, startInputTracking, getK] at hkv

theorem flushStep_eq_record (tNow : Nat) (st : InputState) (p : FieldElem × Option Nat)
    (hk : p.1.kind = ElemKind.input ∨ p.1.kind = ElemKind.textarea) :
    flushStep tNow st p = recordInputChange st p.1 tNow := by
  rcases hk with hk | hk <;> simp [flushStep, hk]

theorem flushStep_curVals (tNow : Nat) (st : InputState) (p : FieldElem × Option Nat) :
    (flushStep tNow st p).curVals = st.curVals := by
  unfold flushStep
  split
  · exact recordInputChange_curVals _ _ _
  · rfl

theorem flushStep_start (tNow : Nat) (st : InputState) (p : FieldElem × Option Nat) :
    (flushStep tNow st p).recordingStartTime = st.recordingStartTime := by
  unfold flushStep
  split
  · exact recordInputChange_start _ _ _
  · rfl

theorem flushStep_emitted_mono (tNow : Nat) (st : InputState) (p : FieldElem × Option Nat)
    (m : InputMsg) (hm : m ∈ st.emitted) : m ∈ (flushStep tNow st p).emitted := by
  unfold flushStep
  split
  · exact recordInputChange_emitted_mono _ _ _ m hm
  · exact hm

theorem flushStep_lastRecorded_ne (tNow : Nat) (st : InputState)
    (p : FieldElem × Option Nat) (k : Nat) (hk : k ≠ p.1.key) :
    getK (flushStep tNow st p).lastRecordedValues k = getK st.lastRecordedValues k := by
  unfold flushStep
  split
  · exact recordInputChange_lastRecorded_ne _ _ _ _ hk
  · rfl

theorem foldl_flush_curVals (tNow : Nat) (l : List (FieldElem × Option Nat))
    (st : InputState) : (l.foldl (flushStep tNow) st).curVals = st.curVals := by
  induction l generalizing st with
  | nil => rfl
  | cons p rest ih => rw [List.foldl_cons, ih, flushStep_curVals]

theorem foldl_flush_start (tNow : Nat) (l : List (FieldElem × Option Nat))
    (st : InputState) :
    (l.foldl (flushStep tNow) st).recordingStartTime = st.recordingStartTime := by
  induction l generalizing st with
  | nil => rfl
  | cons p rest ih => rw [List.foldl_cons, ih, flushStep_start]

theorem foldl_flush_emitted_mono (tNow : Nat) (l : List (FieldElem × Option Nat))
    (st : InputState) (m : InputMsg) (hm : m ∈ st.emitted) :
    m ∈ (l.foldl (flushStep tNow) st).emitted := by
  induction l generalizing st with
  | nil => exact hm
  | cons p rest ih =>
    rw [List.foldl_cons]
    exact ih _ (flushStep_emitted_mono tNow st p m hm)

theorem foldl_flush_lastRecorded_ne (tNow : Nat) (l : List (FieldElem × Option Nat))
    (st : InputState) (k : Nat) (hl : ∀ p ∈ l, k ≠ p.1.key) :
    getK (l.foldl (flushStep tNow) st).lastRecordedValues k =
      getK st.lastRecordedValues k := by
  induction l generalizing st with
  | nil => rfl
  | cons p rest ih =>
    rw [List.foldl_cons, ih _ (fun q hq => hl q (List.mem_cons_of_mem _ hq)),
      flushStep_lastRecorded_ne tNow st p k (hl p (List.mem_cons_self _ _))]

/-- Claim C9: when the content script stops recording
(`flushPendingInputs` followed by `stopInputTracking`), every element
with a pending unflushed debounce timer has its current recordable value
present in the emitted messages — force-flushed now, or already recorded
by an earlier commit of the identical value — and only afterwards are
the timer and last-value maps cleared and tracking deactivated, so a
final keystroke burst that never reached its quiet period is not lost. -/
theorem c9_pending_inputs_flushed_on_stop (cv : List (Nat × String)) (startTime : Nat)
    (evs : List PageEv) (e : FieldElem) (d tNow : Nat)
    (hpend : (e, some d) ∈ (run (initStarted cv startTime) evs).timers) :
    (∃ m ∈ (contentStopRecording (run (initStarted cv startTime) evs) tNow).emitted,
      m.elem.key = e.key ∧
      m.value = (recordedValueFor (run (initStarted cv startTime) evs) e).1) ∧
    (contentStopRecording (run (initStarted cv startTime) evs) tNow).timers = [] ∧
    (contentStopRecording (run (initStarted cv startTime) evs) tNow).lastRecordedValues = [] ∧
    (contentStopRecording (run (initStarted cv startTime) evs) tNow).recordingStartTime =
      none := by
  set s := run (initStarted cv startTime) evs with hsdef
  have hinv : ReachInv s := reachInv_run _ evs (reachInv_initStarted cv startTime)
  refine ⟨?_, rfl, rfl, rfl⟩
  obtain ⟨l1, l2, hsplit⟩ := List.append_of_mem hpend
  have hkind : e.kind = ElemKind.input ∨ e.kind = ElemKind.textarea :=
    hinv.2.1.1 (e, some d) hpend
  obtain ⟨start, hstart⟩ := Option.isSome_iff_exists.mp hinv.1
  have hl1 : ∀ p ∈ l1, e.key ≠ p.1.key := by
    have hnd := hinv.2.1.2
    rw [hsplit, List.map_append, List.map_cons] at hnd
    have hdisj := List.disjoint_of_nodup_append hnd
    intro p hp heq
    exact hdisj (heq ▸ List.mem_map_of_mem _ hp) (List.mem_cons_self _ _)
  have hfold : s.timers.foldl (flushStep tNow) s =
      l2.foldl (flushStep tNow)
        (flushStep tNow (l1.foldl (flushStep tNow) s) (e, some d)) := by
    rw [hsplit, List.foldl_append, List.foldl_cons]
  have hemit : (contentStopRecording s tNow).emitted =
      (l2.foldl (flushStep tNow)
        (flushStep tNow (l1.foldl (flushStep tNow) s) (e, some d))).emitted := by
    show (s.timers.foldl (flushStep tNow) s).emitted = _
    rw [hfold]
  have hcv1 : (l1.foldl (flushStep tNow) s).curVals = s.curVals :=
    foldl_flush_curVals tNow l1 s
  have hss1 : (l1.foldl (flushStep tNow) s).recordingStartTime = some start := by
    rw [foldl_flush_start]
    exact hstart
  have hrv : recordedValueFor (l1.foldl (flushStep tNow) s) e = recordedValueFor s e :=
    recordedValueFor_congr _ _ e hcv1
  have hstep : flushStep tNow (l1.foldl (flushStep tNow) s) (e, some d) =
      recordInputChange (l1.foldl (flushStep tNow) s) e tNow :=
    flushStep_eq_record tNow _ (e, some d) hkind
  by_cases hded : getK (l1.foldl (flushStep tNow) s).lastRecordedValues e.key =
      some (recordedValueFor (l1.foldl (flushStep tNow) s) e).1
  · have hklast : getK s.lastRecordedValues e.key = some (recordedValueFor s e).1 := by
      rw [← hrv, ← foldl_flush_lastRecorded_ne tNow l1 s e.key hl1]
      exact hded
    obtain ⟨m, hm, hmk, hmv⟩ := hinv.2.2 e.key (recordedValueFor s e).1 hklast
    refine ⟨m, ?_, hmk, hmv⟩
    rw [hemit]
    exact foldl_flush_emitted_mono tNow l2 _ m
      (flushStep_emitted_mono tNow _ _ m (foldl_flush_emitted_mono tNow l1 s m hm))
  · have hrec := recordInputChange_eq_of_emit _ e tNow start hss1 hded
    refine ⟨(⟨e, (recordedValueFor (l1.foldl (flushStep tNow) s) e).1,
        (recordedValueFor (l1.foldl (flushStep tNow) s) e).2, tNow - start⟩ : InputMsg),
      ?_, rfl, ?_⟩
    · rw [hemit]
      apply foldl_flush_emitted_mono tNow l2
      rw [hstep, hrec]
      exact List.mem_append_right _ (List.mem_singleton.mpr rfl)
    · show (recordedValueFor (l1.foldl (flushStep tNow) s) e).1 = (recordedValueFor s e).1
      rw [hrv]

/-- Witness for C9: one keystroke ("hi") on a text input, then stop
before the 1000 ms quiet period; the pending value is flushed. -/
theorem c9_pending_inputs_flushed_on_stop_witness :
    ((⟨3, .input, "text", false, false⟩, some 1010) ∈
      (run (initStarted [] 0)
        [.inp ⟨3, .input, "text", false, false⟩ 10 "hi"]).timers ∧
    ((∃ m ∈ (contentStopRecording (run (initStarted [] 0)
          [.inp ⟨3, .input, "text", false, false⟩ 10 "hi"]) 500).emitted,
        m.elem.key = (⟨3, .input, "text", false, false⟩ : FieldElem).key ∧
        m.value = (recordedValueFor (run (initStarted [] 0)
          [.inp ⟨3, .input, "text", false, false⟩ 10 "hi"])
          ⟨3, .input, "text", false, false⟩).1) ∧
      (contentStopRecording (run (initStarted [] 0)
        [.inp ⟨3, .input, "text", false, false⟩ 10 "hi"]) 500).timers = [] ∧
      (contentStopRecording (run (initStarted [] 0)
        [.inp ⟨3, .input, "text", false, false⟩ 10 "hi"]) 500).lastRecordedValues = [] ∧
      (contentStopRecording (run (initStarted [] 0)
        [.inp ⟨3, .input, "text", false, false⟩ 10 "hi"]) 500).recordingStartTime = none)) :=
  ⟨by decide,
    c9_pending_inputs_flushed_on_stop [] 0
      [.inp ⟨3, .input, "text", false, false⟩ 10 "hi"]
      ⟨3, .input, "text", false, false⟩ 1010 500 (by decide)⟩

/-! # C3: debouncing of keystroke bursts -/

theorem stepEv_inp_debounce (cv : List (Nat × String)) (start : Nat) (e : FieldElem)
    (hkind : (e.kind = ElemKind.input ∧ skippedInputTypes.contains e.inputType = false ∧
        immediateInputTypes.contains e.inputType = false) ∨ e.kind = ElemKind.textarea)
    (hign : e.ignored = false)
    (timers0 : List (FieldElem × Option Nat)) (lr : List (Nat × String))
    (em : List InputMsg) (t' : Nat) (v' : String)
    (hnodue : dueTimers
      { recordingStartTime := some start, timers := timers0,
        lastRecordedValues := lr, curVals := cv, emitted := em } t' = []) :
    stepEv
      { recordingStartTime := some start, timers := timers0,
        lastRecordedValues := lr, curVals := cv, emitted := em }
      (PageEv.inp e t' v') =
    { recordingStartTime := some start,
      timers := setTimerOf (cancelTimerOf timers0 e) e (t' + INPUT_DEBOUNCE_MS),
      lastRecordedValues := lr, curVals := setK cv e.key v', emitted := em } := by
  show handleInputEvent (setCurVal (fireDue
    { recordingStartTime := some start, timers := timers0,
      lastRecordedValues := lr, curVals := cv, emitted := em } t') e v') e t' = _
  rw [fireDue_of_no_due _ _ hnodue]
  rw [handleInputEvent_eq_debounce _ e t' start rfl hign hkind]
  rfl

theorem run_burst_state (cv : List (Nat × String)) (start : Nat) (e : FieldElem)
    (hkind : (e.kind = ElemKind.input ∧ skippedInputTypes.contains e.inputType = false ∧
        immediateInputTypes.contains e.inputType = false) ∨ e.kind = ElemKind.textarea)
    (hign : e.ignored = false) :
    ∀ (evs : List (Nat × String)) (t : Nat) (v : String),
      List.Chain' (fun a b => a.1 ≤ b.1 ∧ b.1 < a.1 + INPUT_DEBOUNCE_MS) ((t, v) :: evs) →
      run { recordingStartTime := some start,
            timers := [(e, some (t + INPUT_DEBOUNCE_MS))],
            lastRecordedValues := [], curVals := setK cv e.key v, emitted := [] }
          (evs.map (fun q => PageEv.inp e q.1 q.2)) =
        { recordingStartTime := some start,
          timers := [(e, some ((evs.getLastD (t, v)).1 + INPUT_DEBOUNCE_MS))],
          lastRecordedValues := [],
          curVals := setK cv e.key (evs.getLastD (t, v)).2, emitted := [] } := by
  intro evs
  induction evs with
  | nil =>
    intro t v _
    rfl
  | cons q rest ih =>
    intro t v hch
    obtain ⟨⟨hle, hlt⟩, hch'⟩ := List.chain'_cons.mp hch
    rw [List.map_cons]
    have hrc : run
        { recordingStartTime := some start,
          timers := [(e, some (t + INPUT_DEBOUNCE_MS))],
          lastRecordedValues := [], curVals := setK cv e.key v, emitted := [] }
        (PageEv.inp e q.1 q.2 :: rest.map (fun q => PageEv.inp e q.1 q.2)) =
        run (stepEv
          { recordingStartTime := some start,
            timers := [(e, some (t + INPUT_DEBOUNCE_MS))],
            lastRecordedValues := [], curVals := setK cv e.key v, emitted := [] }
          (PageEv.inp e q.1 q.2)) (rest.map (fun q => PageEv.inp e q.1 q.2)) := rfl
    rw [hrc]
    have hnodue : dueTimers
        { recordingStartTime := some start,
          timers := [(e, some (t + INPUT_DEBOUNCE_MS))],
          lastRecordedValues := [], curVals := setK cv e.key v, emitted := [] } q.1 = [] := by
      simp only [dueTimers, List.filterMap_cons, List.filterMap_nil]
      rw [if_neg (by omega)]
    rw [stepEv_inp_debounce _ start e hkind hign _ _ _ q.1 q.2 hnodue]
    have htimers : setTimerOf (cancelTimerOf [(e, some (t + INPUT_DEBOUNCE_MS))] e) e
        (q.1 + INPUT_DEBOUNCE_MS) = [(e, some (q.1 + INPUT_DEBOUNCE_MS))] := by
      simp [cancelTimerOf, setTimerOf]
    rw [htimers, setK_setK_self, List.getLastD_cons]
    have := ih q.1 q.2 hch'
    rw [show (q.1, q.2) = q from rfl] at this
    exact this

/-- Claim C3: a burst of input events on one text field, each arriving
less than 1000 ms after the previous one, keeps restarting the element's
debounce timer, so once the quiet period elapses exactly one message is
emitted and it carries the final value; and a blur before the timer
fires cancels the timer and flushes immediately — again exactly one
message with the final value, not two, even after the original deadline
passes. -/
theorem c3_debounce_burst_single_step (cv : List (Nat × String)) (start : Nat)
    (e : FieldElem) (t1 tEnd tb tEnd2 : Nat) (v1 : String)
    (evs : List (Nat × String))
    (hkind : (e.kind = ElemKind.input ∧ skippedInputTypes.contains e.inputType = false ∧
        immediateInputTypes.contains e.inputType = false) ∨ e.kind = ElemKind.textarea)
    (hign : e.ignored = false)
    (hns : isSensitiveField e = false)
    (hch : List.Chain' (fun a b => a.1 ≤ b.1 ∧ b.1 < a.1 + INPUT_DEBOUNCE_MS)
      ((t1, v1) :: evs))
    (hEnd : (evs.getLastD (t1, v1)).1 + INPUT_DEBOUNCE_MS ≤ tEnd)
    (hb : tb < (evs.getLastD (t1, v1)).1 + INPUT_DEBOUNCE_MS) :
    (runUntil (initStarted cv start)
        (((t1, v1) :: evs).map (fun q => PageEv.inp e q.1 q.2)) tEnd).emitted =
      [⟨e, (evs.getLastD (t1, v1)).2, false,
        (evs.getLastD (t1, v1)).1 + INPUT_DEBOUNCE_MS - start⟩] ∧
    (runUntil (initStarted cv start)
        (((t1, v1) :: evs).map (fun q => PageEv.inp e q.1 q.2) ++ [PageEv.blur e tb])
        tEnd2).emitted =
      [⟨e, (evs.getLastD (t1, v1)).2, false, tb - start⟩] := by
  have hksel : ¬ e.kind = ElemKind.select := by
    rcases hkind with ⟨hk, _, _⟩ | hk <;> simp [hk]
  have hkind2 : e.kind = ElemKind.input ∨ e.kind = ElemKind.textarea := by
    rcases hkind with ⟨hk, _, _⟩ | hk
    · exact Or.inl hk
    · exact Or.inr hk
  have hstep0 : stepEv (initStarted cv start) (PageEv.inp e t1 v1) =
      { recordingStartTime := some start, timers := [(e, some (t1 + INPUT_DEBOUNCE_MS))],
        lastRecordedValues := [], curVals := setK cv e.key v1, emitted := [] } := by
    have h0 := stepEv_inp_debounce cv start e hkind hign [] [] [] t1 v1 (by rfl)
    rw [show (initStarted cv start) =
      { recordingStartTime := some start, timers := ([] : List (FieldElem × Option Nat)),
        lastRecordedValues := ([] : List (Nat × String)), curVals := cv,
        emitted := ([] : List InputMsg) } from rfl]
    rw [h0]
    simp [cancelTimerOf, setTimerOf]
  have hrun : run (initStarted cv start)
      (((t1, v1) :: evs).map (fun q => PageEv.inp e q.1 q.2)) =
      { recordingStartTime := some start,
        timers := [(e, some ((evs.getLastD (t1, v1)).1 + INPUT_DEBOUNCE_MS))],
        lastRecordedValues := [],
        curVals := setK cv e.key (evs.getLastD (t1, v1)).2, emitted := [] } := by
    rw [List.map_cons]
    have hrc : run (initStarted cv start)
        (PageEv.inp e t1 v1 :: evs.map (fun q => PageEv.inp e q.1 q.2)) =
        run (stepEv (initStarted cv start) (PageEv.inp e t1 v1))
          (evs.map (fun q => PageEv.inp e q.1 q.2)) := rfl
    rw [hrc, hstep0]
    exact run_burst_state cv start e hkind hign evs t1 v1 hch
  have hval : recordedValueFor
      { recordingStartTime := some start,
        timers := [(e, some ((evs.getLastD (t1, v1)).1 + INPUT_DEBOUNCE_MS))],
        lastRecordedValues := [],
        curVals := setK cv e.key (evs.getLastD (t1, v1)).2, emitted := [] } e =
      ((evs.getLastD (t1, v1)).2, false) := by
    simp [recordedValueFor, hksel, curValOf, getK_setK_self, getRecordableValue, hns]
  constructor
  · show (fireDue (run (initStarted cv start)
        (((t1, v1) :: evs).map (fun q => PageEv.inp e q.1 q.2))) tEnd).emitted = _
    rw [hrun]
    have hdue : dueTimers
        { recordingStartTime := some start,
          timers := [(e, some ((evs.getLastD (t1, v1)).1 + INPUT_DEBOUNCE_MS))],
          lastRecordedValues := [],
          curVals := setK cv e.key (evs.getLastD (t1, v1)).2, emitted := [] } tEnd =
        [(e, (evs.getLastD (t1, v1)).1 + INPUT_DEBOUNCE_MS)] := by
      simp only [dueTimers, List.filterMap_cons, List.filterMap_nil]
      rw [if_pos (by omega)]
    have hfd : fireDue
        { recordingStartTime := some start,
          timers := [(e, some ((evs.getLastD (t1, v1)).1 + INPUT_DEBOUNCE_MS))],
          lastRecordedValues := [],
          curVals := setK cv e.key (evs.getLastD (t1, v1)).2, emitted := [] } tEnd =
        fireTimer
          { recordingStartTime := some start,
            timers := [(e, some ((evs.getLastD (t1, v1)).1 + INPUT_DEBOUNCE_MS))],
            lastRecordedValues := [],
            curVals := setK cv e.key (evs.getLastD (t1, v1)).2, emitted := [] } e
          ((evs.getLastD (t1, v1)).1 + INPUT_DEBOUNCE_MS) := by
      unfold fireDue
      rw [hdue]
      rfl
    rw [hfd]
    show (recordInputChange _ e _).emitted = _
    rw [recordInputChange_eq_of_emit _ e _ start rfl (by simp [getK])]
    rw [hval]
    rfl
  · show (fireDue (run (initStarted cv start)
        (((t1, v1) :: evs).map (fun q => PageEv.inp e q.1 q.2) ++ [PageEv.blur e tb]))
        tEnd2).emitted = _
    have happ : run (initStarted cv start)
        (((t1, v1) :: evs).map (fun q => PageEv.inp e q.1 q.2) ++ [PageEv.blur e tb]) =
        stepEv (run (initStarted cv start)
          (((t1, v1) :: evs).map (fun q => PageEv.inp e q.1 q.2))) (PageEv.blur e tb) := by
      unfold run
      rw [List.foldl_append]
      rfl
    rw [happ, hrun]
    have hnodue : dueTimers
        { recordingStartTime := some start,
          timers := [(e, some ((evs.getLastD (t1, v1)).1 + INPUT_DEBOUNCE_MS))],
          lastRecordedValues := [],
          curVals := setK cv e.key (evs.getLastD (t1, v1)).2, emitted := [] } tb = [] := by
      simp only [dueTimers, List.filterMap_cons, List.filterMap_nil]
      rw [if_neg (by omega)]
    have hblur : stepEv
        { recordingStartTime := some start,
          timers := [(e, some ((evs.getLastD (t1, v1)).1 + INPUT_DEBOUNCE_MS))],
          lastRecordedValues := [],
          curVals := setK cv e.key (evs.getLastD (t1, v1)).2, emitted := [] }
        (PageEv.blur e tb) =
        recordInputChange
          { recordingStartTime := some start, timers := [],
            lastRecordedValues := [],
            curVals := setK cv e.key (evs.getLastD (t1, v1)).2, emitted := [] } e tb := by
      show handleBlurEvent (fireDue _ tb) e tb = _
      rw [fireDue_of_no_due _ _ hnodue]
      rw [handleBlurEvent_eq_field _ e tb start rfl hkind2]
      simp [deleteTimerOf]
    rw [hblur]
    have hval2 : recordedValueFor
        { recordingStartTime := some start, timers := ([] : List (FieldElem × Option Nat)),
          lastRecordedValues := [],
          curVals := setK cv e.key (evs.getLastD (t1, v1)).2, emitted := [] } e =
        ((evs.getLastD (t1, v1)).2, false) := by
      simp [recordedValueFor, hksel, curValOf, getK_setK_self, getRecordableValue, hns]
    have hrec2 := recordInputChange_eq_of_emit
      { recordingStartTime := some start, timers := ([] : List (FieldElem × Option Nat)),
        lastRecordedValues := [],
        curVals := setK cv e.key (evs.getLastD (t1, v1)).2, emitted := [] } e tb start rfl
      (by simp [getK])
    rw [hrec2, hval2]
    rw [fireDue_of_timers_nil _ _ (by rfl)]
    rfl

/-- Witness for C3: a three-keystroke burst "h"/"he"/"hel" at 10, 300
and 900 ms; the quiet period ends at 1900 ms, a blur variant arrives at
1200 ms. -/
theorem c3_debounce_burst_single_step_witness :
    (((⟨5, .input, "text", false, false⟩ : FieldElem).kind = ElemKind.input ∧
      skippedInputTypes.contains
        (⟨5, .input, "text", false, false⟩ : FieldElem).inputType = false ∧
      immediateInputTypes.contains
        (⟨5, .input, "text", false, false⟩ : FieldElem).inputType = false) ∧
     (⟨5, .input, "text", false, false⟩ : FieldElem).ignored = false ∧
     isSensitiveField ⟨5, .input, "text", false, false⟩ = false ∧
     List.Chain' (fun a b => a.1 ≤ b.1 ∧ b.1 < a.1 + INPUT_DEBOUNCE_MS)
       ((10, "h") :: [(300, "he"), (900, "hel")]) ∧
     (([(300, "he"), (900, "hel")] : List (Nat × String)).getLastD (10, "h")).1 +
       INPUT_DEBOUNCE_MS ≤ 1900 ∧
     1200 < (([(300, "he"), (900, "hel")] : List (Nat × String)).getLastD (10, "h")).1 +
       INPUT_DEBOUNCE_MS) ∧
    ((runUntil (initStarted [] 0)
        (((10, "h") :: [(300, "he"), (900, "hel")]).map
          (fun q => PageEv.inp ⟨5, .input, "text", false, false⟩ q.1 q.2)) 1900).emitted =
      [⟨⟨5, .input, "text", false, false⟩,
        (([(300, "he"), (900, "hel")] : List (Nat × String)).getLastD (10, "h")).2, false,
        (([(300, "he"), (900, "hel")] : List (Nat × String)).getLastD (10, "h")).1 +
          INPUT_DEBOUNCE_MS - 0⟩] ∧
    (runUntil (initStarted [] 0)
        (((10, "h") :: [(300, "he"), (900, "hel")]).map
          (fun q => PageEv.inp ⟨5, .input, "text", false, false⟩ q.1 q.2) ++
          [PageEv.blur ⟨5, .input, "text", false, false⟩ 1200]) 5000).emitted =
      [⟨⟨5, .input, "text", false, false⟩,
        (([(300, "he"), (900, "hel")] : List (Nat × String)).getLastD (10, "h")).2, false,
        1200 - 0⟩]) :=
  ⟨⟨⟨rfl, by decide, by decide⟩, rfl, by decide,
    List.chain'_cons.mpr ⟨⟨by decide, by decide⟩,
      List.chain'_cons.mpr ⟨⟨by decide, by decide⟩, List.chain'_singleton _⟩⟩,
    by decide, by decide⟩,
    c3_debounce_burst_single_step [] 0 ⟨5, .input, "text", false, false⟩
      10 1900 1200 5000 "h" [(300, "he"), (900, "hel")]
      (Or.inl ⟨rfl, by decide, by decide⟩) rfl (by decide)
      (List.chain'_cons.mpr ⟨⟨by decide, by decide⟩,
        List.chain'_cons.mpr ⟨⟨by decide, by decide⟩, List.chain'_singleton _⟩⟩)
      (by decide) (by decide)⟩
